import Mathlib

/-!
Verification of the live session orchestration and history-query subsystem
of the speicher-dashboard repository.

The definitions below are a shallow embedding of the relevant source code:

* `src/server.js` — the Socket.IO handlers (`create-session`, `send-message`,
  `agent-join-session`, `close-session`);
* `src/unnamed/part_008` — `ChatService` (getSessions, updateSession,
  getMessages, getRecentMessages, createMessage, ...);
* `src/src/app/api/chat-messages/route.ts` and
  `src/src/app/api/chat-sessions/route.ts` — the REST handlers;
* `src/src/db/mongodb-enhanced.ts` — `MongoDBManager.withRetry` and the
  collection indexes (in particular the unique indexes on `chatSessions.id`
  and `chatMessages.id`).

Modelling conventions: ISO-8601 timestamp strings are represented by `Nat`
(milliseconds since epoch; the ISO format is order-isomorphic to it),
MongoDB documents by Lean structures, a collection by a `List`, and
`updateOne` / `findOneAndUpdate` by an update of the first matching list
element (for the collections used here a unique index makes the match
unique anyway). JavaScript string/number truthiness tests (`if (x)`) are
embedded explicitly: a missing or empty string and the number `0` are falsy.
`$regex` with the `i` option is modelled as case-insensitive substring
matching.
-/

namespace Speicher

/-- A document of the `chatSessions` collection (fields used by the
subsystem; timestamps as epoch milliseconds). -/
structure Session where
  id : String
  status : String
  agentId : Option String
  agentName : Option String
  userEmail : String
  userName : String
  initialMessage : String
  createdAt : Nat
  updatedAt : Nat
  deriving Repr, DecidableEq

/-- A document of the `chatMessages` collection.  `id` is optional on the
socket path (`if (messageData.id)` guards the dedup check). -/
structure Message where
  id : Option String
  sessionId : String
  sender : String
  message : String
  createdAt : Nat
  deriving Repr, DecidableEq

/-- The persistent store: the two collections of the `speicher` database. -/
structure Store where
  sessions : List Session
  messages : List Message
  deriving Repr, DecidableEq

/-- JavaScript truthiness of an optional string (`undefined` and `""` are
falsy). -/
def strTruthy : Option String → Bool
  | none => false
  | some s => !(s == "")

/-- JavaScript truthiness of an optional number (`undefined` and `0` are
falsy). -/
def numTruthy : Option Int → Bool
  | none => false
  | some v => !(v == 0)

/-- `x || d` for an optional number `x` (JS: `0` falls back to `d`). -/
def jsOrNat (o : Option Nat) (d : Nat) : Nat :=
  match o with
  | none => d
  | some v => if v == 0 then d else v

/-- `findOne({ id: sid })` on `chatSessions`: first document whose `id`
matches. -/
def findSession (st : Store) (sid : String) : Option Session :=
  st.sessions.find? (fun s => s.id == sid)

/-- `findOne({ id: mid })` on `chatMessages`. -/
def findMessageById (st : Store) (mid : String) : Option Message :=
  st.messages.find? (fun m => m.id == some mid)

/-- `updateOne(filter, update)`: rewrite the first element satisfying `p`
with `f`; the boolean is `matchedCount > 0`. -/
def updateFirst (p : α → Bool) (f : α → α) : List α → List α × Bool
  | [] => ([], false)
  | x :: xs =>
    if p x then (f x :: xs, true)
    else
      let r := updateFirst p f xs
      (x :: r.1, r.2)

theorem updateFirst_of_none (p : α → Bool) (f : α → α) (l : List α)
    (h : ∀ x ∈ l, p x = false) : updateFirst p f l = (l, false) := by
  induction l with
  | nil => rfl
  | cons x xs ih =>
    have hx := h x (List.mem_cons_self x xs)
    simp only [updateFirst, hx, Bool.false_eq_true, if_false,
      ih (fun y hy => h y (List.mem_cons_of_mem x hy))]

/-- Every element of the updated list is an original element or the
`f`-image of a matched original element. -/
theorem mem_updateFirst (p : α → Bool) (f : α → α) (l : List α)
    (x : α) (hx : x ∈ (updateFirst p f l).1) :
    x ∈ l ∨ ∃ y ∈ l, p y = true ∧ x = f y := by
  induction l with
  | nil => simp [updateFirst] at hx
  | cons a as ih =>
    by_cases hp : p a = true
    · simp only [updateFirst, hp, if_true] at hx
      rcases List.mem_cons.mp hx with h | h
      · exact Or.inr ⟨a, List.mem_cons_self a as, hp, h⟩
      · exact Or.inl (List.mem_cons_of_mem a h)
    · simp only [updateFirst, hp, Bool.false_eq_true, if_false] at hx
      rcases List.mem_cons.mp hx with h | h
      · exact Or.inl (h ▸ List.mem_cons_self a as)
      · rcases ih h with h' | ⟨y, hy, hpy, hxy⟩
        · exact Or.inl (List.mem_cons_of_mem a h')
        · exact Or.inr ⟨y, List.mem_cons_of_mem a hy, hpy, hxy⟩

/-! ## Socket.IO handlers (`src/server.js`) -/

/-- Input of the `create-session` event as issued by the chat front-end:
per the spec (§3 Lifecycle) the automated front-end creates every session
with `status = waiting` and no agent fields, so the embedded handler
inserts a waiting session without agent fields; the remaining fields come
from the payload.  The handler validates `!sessionData.id ||
!sessionData.userEmail`. -/
structure CreateInput where
  id : String
  userEmail : String
  userName : String
  initialMessage : String
  deriving Repr, DecidableEq

/-- The session document inserted for a front-end creation request:
`status = waiting`, no agent fields, both timestamps stamped `now`. -/
def sessionDocOf (inp : CreateInput) (now : Nat) : Session :=
  { id := inp.id, status := "waiting", agentId := none, agentName := none,
    userEmail := inp.userEmail, userName := inp.userName,
    initialMessage := inp.initialMessage, createdAt := now,
    updatedAt := now }

/-- `create-session` handler (`src/server.js:185-249`): reject on missing
fields, reject when a session with the same id exists, otherwise insert the
document stamped `createdAt = updatedAt = now`. -/
def createSessionSock (st : Store) (inp : CreateInput) (now : Nat) :
    Store × Bool :=
  if inp.id == "" || inp.userEmail == "" then (st, false)
  else
    match findSession st inp.id with
    | some _ => (st, false)
    | none =>
      ({ st with sessions := st.sessions ++ [sessionDocOf inp now] }, true)

/-- Input of the `send-message` event. -/
structure MsgInput where
  id : Option String
  sessionId : String
  sender : String
  message : String
  deriving Repr, DecidableEq

/-- Observable side effects of the `send-message` handler, in program
order. -/
inductive Action where
  | insertMessage (m : Message)
  | emitNewMessage (room : String) (m : Message)
  | setSessionUpdatedAt (sid : String) (t : Nat)
  deriving Repr, DecidableEq

/-- Acknowledgment of the `send-message` handler: `ok m dup` is
`{success: true, message: m, duplicate: dup}`; `err e` is
`{success: false, error: e}`. -/
inductive MsgOutcome where
  | ok (m : Message) (dup : Bool)
  | err (e : String)
  deriving Repr, DecidableEq

structure SendResult where
  store : Store
  trace : List Action
  outcome : MsgOutcome
  deriving Repr, DecidableEq

/-- `send-message` handler (`src/server.js:252-341`).  `insertOk` injects a
possible failure of the durable `insertOne` (the `catch` branch).  The
trace records the persistent writes and the room broadcast in program
order: persist, then emit, then bump the session `updatedAt`. -/
def sendMessage (st : Store) (inp : MsgInput) (now : Nat) (insertOk : Bool) :
    SendResult :=
  if inp.sessionId == "" || inp.message == "" || inp.sender == "" then
    ⟨st, [], .err "Invalid message data: missing required fields"⟩
  else
    match findSession st inp.sessionId with
    | none => ⟨st, [], .err "Session not found"⟩
    | some s =>
      if s.status == "closed" then
        ⟨st, [], .err "Cannot send message to closed session"⟩
      else
        match (if strTruthy inp.id then inp.id.bind (findMessageById st) else none) with
        | some m0 => ⟨st, [], .ok m0 true⟩
        | none =>
          if insertOk then
            let doc : Message :=
              { id := inp.id, sessionId := inp.sessionId,
                sender := inp.sender, message := inp.message,
                createdAt := now }
            let st1 := { st with messages := st.messages ++ [doc] }
            let upd := updateFirst (fun t => t.id == inp.sessionId)
              (fun t => { t with updatedAt := now }) st1.sessions
            ⟨{ st1 with sessions := upd.1 },
             [.insertMessage doc, .emitNewMessage inp.sessionId doc,
              .setSessionUpdatedAt inp.sessionId now],
             .ok doc false⟩
          else ⟨st, [], .err "insert failed"⟩

/-- Acknowledgment of the `agent-join-session` handler. -/
inductive JoinOutcome where
  | ok (s : Session)
  | err (e : String)
  deriving Repr, DecidableEq

def JoinOutcome.isOk : JoinOutcome → Bool
  | .ok _ => true
  | .err _ => false

/-- The single atomic conditional update of the claim
(`src/server.js:366-376`): `updateOne({id: sid, status: 'waiting'},
{$set: {status: 'active', agentId, agentName, updatedAt}})`.  The boolean
is `matchedCount > 0`. -/
def agentJoinUpdate (st : Store) (sid ag an : String) (now : Nat) :
    Store × Bool :=
  let r := updateFirst (fun s => s.id == sid && s.status == "waiting")
    (fun s => { s with
      status := "active", agentId := some ag,
      agentName := some an, updatedAt := now }) st.sessions
  ({ st with sessions := r.1 }, r.2)

/-- `agent-join-session` handler (`src/server.js:344-432`): validation,
pre-read checks distinguishing not-found / already-active / closed, then
the atomic conditional update; zero matched documents is reported as a
failure acknowledgment. -/
def agentJoinSession (st : Store) (sid ag an : String) (now : Nat) :
    Store × JoinOutcome :=
  if sid == "" || ag == "" || an == "" then
    (st, .err "Invalid agent join data: missing required fields")
  else
    match findSession st sid with
    | none => (st, .err "Session not found")
    | some s =>
      if s.status == "active" then
        (st, .err "Session is already active with another agent")
      else if s.status == "closed" then
        (st, .err "Session is already closed")
      else
        let r := agentJoinUpdate st sid ag an now
        if r.2 then
          match findSession r.1 sid with
          | some updated => (r.1, .ok updated)
          | none => (r.1, .err "Session not found")
        else
          (r.1, .err "Session not available for joining (may already be active)")

/-- `close-session` handler (`src/server.js:435-468`):
`updateOne({id: sid}, {$set: {status: 'closed', updatedAt: now}})`; the
boolean is the success of the handler (`matchedCount > 0`). -/
def closeSession (st : Store) (sid : String) (now : Nat) : Store × Bool :=
  if sid == "" then (st, false)
  else
    let r := updateFirst (fun s => s.id == sid)
      (fun s => { s with status := "closed", updatedAt := now }) st.sessions
    ({ st with sessions := r.1 }, r.2)

/-! ## Resilience layer (`src/src/db/mongodb-enhanced.ts:189-218`) -/

/-- Result of `MongoDBManager.withRetry`: the final result, the number of
attempts actually made, and the backoff sleeps performed between attempts
(in milliseconds, in order). -/
structure RetryResult (α : Type) where
  result : Except String α
  attemptsMade : Nat
  sleeps : List Nat

/-- The retry loop body.  `op` is the operation as an attempt-indexed
oracle (attempt `k` may succeed or fail independently, modelling transient
store errors); `fuel` is the number of attempts still allowed.  On failure
with fuel left the loop sleeps `delay * 2 ^ (attempt - 1)` and retries;
on the final failed attempt it surfaces that last error. -/
def retryGo (op : Nat → Except String α) (delay : Nat) (attempt : Nat) :
    Nat → RetryResult α
  | 0 => ⟨.error "retry loop not entered", 0, []⟩
  | fuel + 1 =>
    match op attempt with
    | .ok v => ⟨.ok v, 1, []⟩
    | .error e =>
      if fuel == 0 then ⟨.error e, 1, []⟩
      else
        let r := retryGo op delay (attempt + 1) fuel
        ⟨r.result, r.attemptsMade + 1, delay * 2 ^ (attempt - 1) :: r.sleeps⟩

/-- `withRetry(operation, maxRetries = 3, delay = 1000)`. -/
def withRetry (op : Nat → Except String α) (maxRetries : Nat := 3)
    (delay : Nat := 1000) : RetryResult α :=
  retryGo op delay 1 maxRetries

/-! ## ChatService and REST handlers
(`src/unnamed/part_008`, `src/src/app/api/chat-messages/route.ts`,
`src/src/app/api/chat-sessions/route.ts`) -/

/-- JavaScript falsiness of `session.agentId` as used by
`if (messageData.sender === 'agent' && !session.agentId)`: missing or
empty. -/
def agentSet (s : Session) : Bool :=
  match s.agentId with
  | none => false
  | some a => !(a == "")

/-- `createChatMessageSchema`-validated input of `POST /api/chat-messages`
(all fields required and non-empty). -/
structure RestMsgInput where
  id : String
  sessionId : String
  sender : String
  message : String
  deriving Repr, DecidableEq

/-- Result of `POST /api/chat-messages`, as classified by the middleware
error mapping (`src/unnamed/part_002`): 201 with the created document,
404 `NotFoundError`, 400 `ValidationError`, or a surfaced store error. -/
inductive PostMsgOutcome where
  | created (m : Message)
  | notFound (e : String)
  | invalid (e : String)
  | storeErr (e : String)
  deriving Repr, DecidableEq

/-- `chatMessages.insertOne` under the unique index `message_id_unique`
on `id` (`src/src/db/mongodb-enhanced.ts:122-127`): inserting a document
whose `id` duplicates a stored one is rejected with a duplicate-key
error. -/
def insertMessageUnique (st : Store) (doc : Message) : Except String Store :=
  if st.messages.any (fun m => m.id == doc.id) then
    .error "E11000 duplicate key error: message_id_unique"
  else
    .ok { st with messages := st.messages ++ [doc] }

/-- `POST /api/chat-messages`
(`src/src/app/api/chat-messages/route.ts:59-86`): session must exist and
not be closed; an agent sender requires an assigned agent; then
`chatService.createMessage` stamps the server timestamp and inserts. -/
def postChatMessage (st : Store) (inp : RestMsgInput) (now : Nat) :
    Store × PostMsgOutcome :=
  match findSession st inp.sessionId with
  | none => (st, .notFound "Session not found")
  | some s =>
    if s.status == "closed" then
      (st, .invalid "Cannot send messages to a closed session")
    else if inp.sender == "agent" && !agentSet s then
      (st, .invalid "No agent assigned to this session")
    else
      let doc : Message :=
        { id := some inp.id, sessionId := inp.sessionId,
          sender := inp.sender, message := inp.message, createdAt := now }
      match insertMessageUnique st doc with
      | .ok st' => (st', .created doc)
      | .error e => (st, .storeErr e)

/-- `updateChatSessionSchema`-validated body of `PUT /api/chat-sessions`
(minus `sessionId`): each field optional. -/
structure UpdatePatch where
  status : Option String
  agentId : Option String
  agentName : Option String
  deriving Repr, DecidableEq

/-- The `$set` document of `ChatService.updateSession`: the provided
fields plus a fresh `updatedAt`. -/
def applyPatch (p : UpdatePatch) (now : Nat) (s : Session) : Session :=
  { s with
    status := p.status.getD s.status,
    agentId := (p.agentId.map some).getD s.agentId,
    agentName := (p.agentName.map some).getD s.agentName,
    updatedAt := now }

/-- `ChatService.updateSession` (`src/unnamed/part_008:284-305`):
`findOneAndUpdate({id: sid}, {$set: ...}, {returnDocument: 'after'})`,
with no guard on the current status. -/
def updateSessionSvc (st : Store) (sid : String) (p : UpdatePatch)
    (now : Nat) : Store × Option Session :=
  let r := updateFirst (fun s => s.id == sid) (applyPatch p now) st.sessions
  let st' := { st with sessions := r.1 }
  (st', if r.2 then findSession st' sid else none)

/-- Messages of one session sorted ascending by `createdAt`
(`.sort({ createdAt: 1 })`). -/
def sortedSessionMessages (st : Store) (sid : String) : List Message :=
  List.insertionSort (fun a b => a.createdAt ≤ b.createdAt)
    (st.messages.filter (fun m => m.sessionId == sid))

/-- `ChatService.getRecentMessages` (`src/unnamed/part_008:347-361`):
`find({sessionId}).sort({createdAt: 1}).limit(min(100, limit))`. -/
def getRecentMessages (st : Store) (sid : String) (limit : Nat) :
    List Message :=
  (sortedSessionMessages st sid).take (min 100 limit)

/-- The pagination descriptor of `PaginatedResult`. -/
structure Pagination where
  page : Nat
  limit : Nat
  total : Nat
  totalPages : Nat
  hasNext : Bool
  hasPrev : Bool
  deriving Repr, DecidableEq

structure PagedMessages where
  data : List Message
  pagination : Pagination
  deriving Repr, DecidableEq

/-- `ChatService.getMessages` (`src/unnamed/part_008:308-345`): clamp page
and limit, sort ascending by `createdAt`, skip/limit, count in parallel. -/
def getMessagesSvc (st : Store) (sid : String)
    (pageOpt limitOpt : Option Nat) : PagedMessages :=
  let page := max 1 (jsOrNat pageOpt 1)
  let limit := min 100 (max 1 (jsOrNat limitOpt 50))
  let skip := (page - 1) * limit
  let all := sortedSessionMessages st sid
  let data := (all.drop skip).take limit
  let total := (st.messages.filter (fun m => m.sessionId == sid)).length
  let totalPages := (total + limit - 1) / limit
  ⟨data, ⟨page, limit, total, totalPages,
    decide (page < totalPages), decide (page > 1)⟩⟩

/-- `GET /api/chat-messages`
(`src/src/app/api/chat-messages/route.ts:15-56`): after the session
existence check, requests with `page == 1 && limit <= 50` take the
recent-messages shortcut and report a flat pagination descriptor; larger
requests fall through to `ChatService.getMessages`.  `page` and `limit`
are the `paginationSchema`-validated query values. -/
def getChatMessagesGET (st : Store) (sid : String) (page limit : Nat) :
    Except String PagedMessages :=
  match findSession st sid with
  | none => .error "Session not found"
  | some _ =>
    if page == 1 && limit ≤ 50 then
      let msgs := getRecentMessages st sid limit
      .ok ⟨msgs, ⟨1, limit, msgs.length, 1, false, false⟩⟩
    else
      .ok (getMessagesSvc st sid (some page) (some limit))

/-- Outcome of `POST /api/chat-sessions`. -/
inductive CreateOutcome where
  | created (s : Session)
  | conflict (e : String)
  | storeErr (e : String)
  deriving Repr, DecidableEq

/-- `POST /api/chat-sessions`
(`src/src/app/api/chat-sessions/route.ts:67-93`): `getSessionById` through
the resilience wrapper, a `ConflictError` outside the wrapper when the id
exists, then `chatService.createSession` through the wrapper.  The final
`Nat` is the total number of attempts the wrapper made across the store
operations of this request. -/
def postChatSessions (st : Store) (inp : CreateInput) (now : Nat) :
    Store × CreateOutcome × Nat :=
  let r1 := withRetry (fun _ => Except.ok (findSession st inp.id))
  match r1.result with
  | .error e => (st, .storeErr e, r1.attemptsMade)
  | .ok (some _) =>
    (st, .conflict "Session with this ID already exists", r1.attemptsMade)
  | .ok none =>
    let r2 := withRetry (fun _ =>
      Except.ok { st with sessions := st.sessions ++ [sessionDocOf inp now] })
    match r2.result with
    | .error e => (st, .storeErr e, r1.attemptsMade + r2.attemptsMade)
    | .ok st' =>
      (st', .created (sessionDocOf inp now), r1.attemptsMade + r2.attemptsMade)

/-! ## History Query Engine (`ChatService.getSessions`,
`src/unnamed/part_008:46-251`) -/

/-- Does `pat` match at the head of the list? -/
def leadMatch : List Char → List Char → Bool
  | [], _ => true
  | _ :: _, [] => false
  | a :: as, b :: bs => a == b && leadMatch as bs

/-- Does `pat` occur anywhere in the list? -/
def hasSubList (pat : List Char) : List Char → Bool
  | [] => leadMatch pat []
  | h :: t => leadMatch pat (h :: t) || hasSubList pat t

/-- `{$regex: pat, $options: 'i'}` modelled as case-insensitive substring
matching. -/
def iContains (hay pat : String) : Bool :=
  hasSubList pat.toLower.data hay.toLower.data

/-- `SessionFilters` (`src/unnamed/part_008:23-34`).  `status` is the
comma-split array built by the route; dates are epoch milliseconds; a
`none` stands for an absent (or, for strings, empty — both are falsy)
field. -/
structure SessionFilters where
  status : Option (List String) := none
  agentId : Option String := none
  userEmail : Option String := none
  dateFrom : Option Nat := none
  dateTo : Option Nat := none
  searchTerm : Option String := none
  minDuration : Option Int := none
  maxDuration : Option Int := none
  minMessageCount : Option Int := none
  maxMessageCount : Option Int := none
  deriving Repr, DecidableEq

/-- `PaginationOptions` (`src/unnamed/part_008:4-9`). -/
structure PaginationOptions where
  page : Option Nat := none
  limit : Option Nat := none
  sortBy : Option String := none
  sortOrder : Option String := none
  deriving Repr, DecidableEq

/-- The base `query` object built from the non-derived filters
(`src/unnamed/part_008:53-90`), as a predicate on a session document. -/
def matchesQuery (f : SessionFilters) (s : Session) : Bool :=
  (match f.status with
   | none => true
   | some l => l.contains s.status) &&
  (match f.agentId with
   | none => true
   | some a => if a == "" then true else s.agentId == some a) &&
  (match f.userEmail with
   | none => true
   | some e => if e == "" then true else iContains s.userEmail e) &&
  (match f.dateFrom with
   | none => true
   | some d => decide (d ≤ s.createdAt)) &&
  (match f.dateTo with
   | none => true
   | some d => decide (s.createdAt ≤ d)) &&
  (match f.searchTerm with
   | none => true
   | some t =>
     if t == "" then true
     else
       iContains s.userName t || iContains s.userEmail t ||
       (match s.agentName with
        | some an => iContains an t
        | none => false) ||
       iContains s.initialMessage t)

/-- `needsAggregation` (`src/unnamed/part_008:103`): JS truthiness, so a
filter value of `0` does not trigger the aggregation path. -/
def needsAggregation (f : SessionFilters) : Bool :=
  numTruthy f.minDuration || numTruthy f.maxDuration ||
  numTruthy f.minMessageCount || numTruthy f.maxMessageCount

/-- A session document after the `$lookup` + `$addFields` stages:
`messageCount` is the size of the joined message set and `duration` the
difference `updatedAt - createdAt` (both timestamps are always present in
the model, so the `$cond` null branch does not arise). -/
structure AggSession where
  session : Session
  messageCount : Nat
  duration : Int
  deriving Repr, DecidableEq

/-- The `$lookup` (join on `sessionId = id`) and `$addFields` stages
(`src/unnamed/part_008:109-134`). -/
def addFields (st : Store) (s : Session) : AggSession :=
  ⟨s, (st.messages.filter (fun m => m.sessionId == s.id)).length,
   (s.updatedAt : Int) - (s.createdAt : Int)⟩

/-- The `durationMatch` predicate (`src/unnamed/part_008:136-162`): each
bound applies only when its filter value is truthy (nonzero). -/
def durationPred (f : SessionFilters) (a : AggSession) : Bool :=
  (match f.minDuration with
   | none => true
   | some v => if v == 0 then true else decide (v ≤ a.duration)) &&
  (match f.maxDuration with
   | none => true
   | some v => if v == 0 then true else decide (a.duration ≤ v)) &&
  (match f.minMessageCount with
   | none => true
   | some v => if v == 0 then true else decide (v ≤ (a.messageCount : Int))) &&
  (match f.maxMessageCount with
   | none => true
   | some v => if v == 0 then true else decide ((a.messageCount : Int) ≤ v))

/-- Numeric sort key of an aggregated document for `$sort`; fields not
used by the subsystem's sorts map to a constant. -/
def sortVal (name : String) (a : AggSession) : Int :=
  if name == "updatedAt" then a.session.updatedAt
  else if name == "createdAt" then a.session.createdAt
  else if name == "duration" then a.duration
  else if name == "messageCount" then a.messageCount
  else 0

/-- `$sort {[sortBy]: sortOrder}` on aggregated documents (descending is
sorting by the negated key). -/
def sortAgg (name : String) (asc : Bool) (l : List AggSession) :
    List AggSession :=
  let key : AggSession → Int :=
    fun a => if asc then sortVal name a else -(sortVal name a)
  List.insertionSort (fun x y => key x ≤ key y) l

/-- `.sort(sort)` on plain session documents (simple path). -/
def sortSessions (name : String) (asc : Bool) (l : List Session) :
    List Session :=
  (sortAgg name asc (l.map (fun s => ⟨s, 0, 0⟩))).map (·.session)

/-- The data pipeline of the aggregation path
(`src/unnamed/part_008:107-180`): `$match` (base query), `$lookup`,
`$addFields`, `$match` (durationMatch), `$sort`, `$skip`, `$limit`. -/
def dataPipeline (f : SessionFilters) (sortName : String) (asc : Bool)
    (skip limit : Nat) (st : Store) : List AggSession :=
  let base := st.sessions.filter (matchesQuery f)
  let withFields := base.map (addFields st)
  let filtered := withFields.filter (durationPred f)
  ((sortAgg sortName asc filtered).drop skip).take limit

/-- The documents surviving the count pipeline before its `$count` stage
(`src/unnamed/part_008:181-210`) — the source duplicates the `$match`,
`$lookup`, `$addFields` and `durationMatch` stages of the data pipeline,
so this definition spells them again. -/
def countItems (f : SessionFilters) (st : Store) : List AggSession :=
  (((st.sessions.filter (matchesQuery f)).map (addFields st)).filter
    (durationPred f))

/-- The `total` obtained from the count pipeline
(`totalResult[0]?.total || 0`). -/
def countTotal (f : SessionFilters) (st : Store) : Nat :=
  (countItems f st).length

structure PagedSessions where
  data : List Session
  pagination : Pagination
  deriving Repr, DecidableEq

/-- `page = Math.max(1, options.page || 1)`. -/
def pageOf (opts : PaginationOptions) : Nat := max 1 (jsOrNat opts.page 1)

/-- `limit = Math.min(100, Math.max(1, options.limit || 20))`. -/
def limitOf (opts : PaginationOptions) : Nat :=
  min 100 (max 1 (jsOrNat opts.limit 20))

/-- `sortBy = options.sortBy || 'updatedAt'`. -/
def sortNameOf (opts : PaginationOptions) : String :=
  match opts.sortBy with
  | none => "updatedAt"
  | some n => if n == "" then "updatedAt" else n

/-- `ChatService.getSessions` (`src/unnamed/part_008:46-251`): clamped
pagination, then either the aggregation path (derived-field filters
present) or the simple find/count path.  `Math.ceil(total / limit)` is
`(total + limit - 1) / limit` in `Nat` arithmetic (`limit ≥ 1`).  On the
aggregation path the final `$project` only removes the joined `messages`
array; the model keeps the underlying session document. -/
def getSessions (f : SessionFilters) (opts : PaginationOptions)
    (st : Store) : PagedSessions :=
  if needsAggregation f then
    { data := (dataPipeline f (sortNameOf opts)
        (opts.sortOrder == some "asc")
        ((pageOf opts - 1) * limitOf opts) (limitOf opts) st).map
          (·.session),
      pagination :=
        ⟨pageOf opts, limitOf opts, countTotal f st,
         (countTotal f st + limitOf opts - 1) / limitOf opts,
         decide (pageOf opts <
           (countTotal f st + limitOf opts - 1) / limitOf opts),
         decide (pageOf opts > 1)⟩ }
  else
    { data := ((sortSessions (sortNameOf opts)
        (opts.sortOrder == some "asc")
        (st.sessions.filter (matchesQuery f))).drop
          ((pageOf opts - 1) * limitOf opts)).take (limitOf opts),
      pagination :=
        ⟨pageOf opts, limitOf opts,
         (st.sessions.filter (matchesQuery f)).length,
         ((st.sessions.filter (matchesQuery f)).length + limitOf opts - 1) /
           limitOf opts,
         decide (pageOf opts <
           ((st.sessions.filter (matchesQuery f)).length + limitOf opts - 1) /
             limitOf opts),
         decide (pageOf opts > 1)⟩ }

/-! ## Concurrent executions of `agent-join-session`

Each in-flight claim performs two store operations, in program order: the
pre-read (`findOne`) and the atomic conditional update.  The store
serializes these primitive operations; a concurrent execution is an
arbitrary interleaving (schedule) of them.  A schedule is *valid* when
every claim pre-reads exactly once, and performs its conditional update
exactly once afterwards exactly if its pre-read passed the handler's
guard checks (found, not active, not closed — i.e. observed `waiting`);
a claim whose pre-read failed the guards aborts with a failure
acknowledgment and never writes. -/

structure ClaimReq where
  agentId : String
  agentName : String
  time : Nat
  deriving Repr, DecidableEq

/-- A primitive store operation of claim `i`: its pre-read or its atomic
conditional update. -/
inductive CEv where
  | pre (i : Nat)
  | cas (i : Nat)
  deriving Repr, DecidableEq

/-- State of a concurrent run: the store plus, per claim, whether its
pre-read passed the guards, whether its update already ran, and whether
that update matched. -/
structure RunSt where
  store : Store
  observed : Nat → Option Bool
  casDone : Nat → Bool
  succeeded : Nat → Bool

/-- Pointwise function update. -/
def updF (f : Nat → α) (i : Nat) (v : α) : Nat → α :=
  fun j => if j == i then v else f j

theorem updF_same (f : Nat → α) (i : Nat) (v : α) : updF f i v i = v := by
  simp [updF]

theorem updF_ne (f : Nat → α) (i : Nat) (v : α) (j : Nat) (h : j ≠ i) :
    updF f i v j = f j := by
  simp [updF, h]

/-- What the pre-read observes: the handler proceeds to the update exactly
when the session is found with status `waiting`
(`src/server.js:353-364`). -/
def obsWaiting (sid : String) (st : Store) : Bool :=
  match findSession st sid with
  | some s => s.status == "waiting"
  | none => false

def claimStep (sid : String) (claims : List ClaimReq) (rs : RunSt) :
    CEv → RunSt
  | .pre i =>
    { rs with observed := updF rs.observed i (some (obsWaiting sid rs.store)) }
  | .cas i =>
    match claims[i]? with
    | none => rs
    | some c =>
      let r := agentJoinUpdate rs.store sid c.agentId c.agentName c.time
      { rs with
        store := r.1,
        casDone := updF rs.casDone i true,
        succeeded := updF rs.succeeded i r.2 }

def runClaims (sid : String) (claims : List ClaimReq) :
    RunSt → List CEv → RunSt
  | rs, [] => rs
  | rs, e :: es => runClaims sid claims (claimStep sid claims rs e) es

/-- Validity of a schedule from a given state: pre-reads happen once, on a
not-yet-observed claim; a conditional update runs only for a claim whose
pre-read observed `waiting` and has not updated yet; and at the end every
claim has pre-read and every claim that observed `waiting` has performed
its update (no claim is abandoned mid-flight). -/
def validRun (sid : String) (claims : List ClaimReq) :
    RunSt → List CEv → Bool
  | rs, [] =>
    (List.range claims.length).all (fun i => !(rs.observed i == none)) &&
    (List.range claims.length).all
      (fun i => !(rs.observed i == some true) || rs.casDone i)
  | rs, (CEv.pre i) :: es =>
    decide (i < claims.length) && (rs.observed i == none) &&
    validRun sid claims (claimStep sid claims rs (.pre i)) es
  | rs, (CEv.cas i) :: es =>
    decide (i < claims.length) && (rs.observed i == some true) &&
    !(rs.casDone i) &&
    validRun sid claims (claimStep sid claims rs (.cas i)) es

def initRun (st : Store) : RunSt :=
  ⟨st, fun _ => none, fun _ => false, fun _ => false⟩

/-- The winning claim's view of the session after its conditional
update. -/
def claimedDoc (s0 : Session) (c : ClaimReq) : Session :=
  { s0 with
    status := "active", agentId := some c.agentId,
    agentName := some c.agentName, updatedAt := c.time }

theorem updateFirst_append (p : α → Bool) (f : α → α) (a b : List α)
    (x : α) (ha : ∀ y ∈ a, p y = false) (hx : p x = true) :
    updateFirst p f (a ++ x :: b) = (a ++ f x :: b, true) := by
  induction a with
  | nil => simp [updateFirst, hx]
  | cons y ys ih =>
    have hy := ha y (List.mem_cons_self y ys)
    simp only [List.cons_append, updateFirst, hy, Bool.false_eq_true,
      if_false, List.append_eq,
      ih (fun z hz => ha z (List.mem_cons_of_mem y hz))]

theorem find?_append_cons (p : α → Bool) (a b : List α) (x : α)
    (ha : ∀ y ∈ a, p y = false) (hx : p x = true) :
    (a ++ x :: b).find? p = some x := by
  induction a with
  | nil => simp [List.find?, hx]
  | cons y ys ih =>
    have hy := ha y (List.mem_cons_self y ys)
    simp only [List.cons_append, List.find?, hy, List.append_eq,
      ih (fun z hz => ha z (List.mem_cons_of_mem y hz))]

section Race

variable (sid : String) (claims : List ClaimReq) (msgs : List Message)
variable (a b : List Session) (s0 : Session)

/-- The inductive invariant of a concurrent claim run: either no update
has run yet (store untouched, all pre-reads so far observed `waiting`),
or exactly one claim has won and the session is active with its
identity. -/
def RaceInv (rs : RunSt) : Prop :=
  (rs.store = ⟨a ++ s0 :: b, msgs⟩ ∧
    (∀ i, rs.succeeded i = false) ∧ (∀ i, rs.casDone i = false) ∧
    (∀ i, rs.observed i = none ∨ rs.observed i = some true)) ∨
  (∃ w, w < claims.length ∧ ∃ c, claims[w]? = some c ∧
    rs.succeeded w = true ∧ rs.casDone w = true ∧
    (∀ j, j ≠ w → rs.succeeded j = false) ∧
    rs.store = ⟨a ++ claimedDoc s0 c :: b, msgs⟩)

end Race

/-- A conditional update whose guard matches no stored document leaves the
store unchanged and reports zero matched documents. -/
theorem cas_noMatch (st : Store) (sid ag an : String) (now : Nat)
    (h : ∀ s ∈ st.sessions, (s.id == sid && s.status == "waiting") = false) :
    agentJoinUpdate st sid ag an now = (st, false) := by
  unfold agentJoinUpdate
  rw [updateFirst_of_none _ _ _ h]

/-- The conditional update on a store whose unique `sid` document is
waiting: it matches exactly that document and installs the agent. -/
theorem cas_waiting (msgs : List Message) (a b : List Session)
    (s0 : Session) (sid : String) (c : ClaimReq)
    (hid : s0.id = sid) (hw : s0.status = "waiting")
    (ha : ∀ s ∈ a, (s.id == sid) = false) :
    agentJoinUpdate ⟨a ++ s0 :: b, msgs⟩ sid c.agentId c.agentName c.time =
      (⟨a ++ claimedDoc s0 c :: b, msgs⟩, true) := by
  unfold agentJoinUpdate
  rw [updateFirst_append _ _ a b s0
    (fun y hy => by simp [ha y hy])
    (by simp [hid, hw])]
  rfl

/-- After a successful claim nothing else with id `sid` is waiting, so any
further conditional update matches nothing. -/
theorem cas_afterClaim (msgs : List Message) (a b : List Session)
    (s0 : Session) (sid ag an : String) (now : Nat) (c : ClaimReq)
    (ha : ∀ s ∈ a, (s.id == sid) = false)
    (hb : ∀ s ∈ b, (s.id == sid) = false) :
    agentJoinUpdate ⟨a ++ claimedDoc s0 c :: b, msgs⟩ sid ag an now =
      (⟨a ++ claimedDoc s0 c :: b, msgs⟩, false) := by
  apply cas_noMatch
  intro s hs
  rcases List.mem_append.mp hs with h | h
  · simp [ha s h]
  · rcases List.mem_cons.mp h with h' | h'
    · subst h'
      simp [claimedDoc]
    · simp [hb s h']

/-- A pre-read on the untouched store observes the waiting session. -/
theorem obs_initial (msgs : List Message) (a b : List Session)
    (s0 : Session) (sid : String)
    (hid : s0.id = sid) (hw : s0.status = "waiting")
    (ha : ∀ s ∈ a, (s.id == sid) = false) :
    obsWaiting sid ⟨a ++ s0 :: b, msgs⟩ = true := by
  unfold obsWaiting findSession
  rw [show (⟨a ++ s0 :: b, msgs⟩ : Store).sessions = a ++ s0 :: b from rfl,
    find?_append_cons _ a b s0 (fun y hy => ha y hy) (by simp [hid])]
  simp [hw]

/-- Invariant preservation plus the end-of-schedule argument: every valid
complete schedule started in the invariant ends with exactly one
successful claim and the session active under the winner's identity. -/
theorem race_aux (sid : String) (claims : List ClaimReq)
    (msgs : List Message) (a b : List Session) (s0 : Session)
    (hid : s0.id = sid) (hw : s0.status = "waiting")
    (ha : ∀ s ∈ a, (s.id == sid) = false)
    (hb : ∀ s ∈ b, (s.id == sid) = false)
    (hne : claims ≠ []) :
    ∀ (evs : List CEv) (rs : RunSt),
      validRun sid claims rs evs = true →
      RaceInv claims msgs a b s0 rs →
      ∃ w, w < claims.length ∧ ∃ c, claims[w]? = some c ∧
        (runClaims sid claims rs evs).succeeded w = true ∧
        (∀ j, j ≠ w → (runClaims sid claims rs evs).succeeded j = false) ∧
        (runClaims sid claims rs evs).store = ⟨a ++ claimedDoc s0 c :: b, msgs⟩ := by
  intro evs
  induction evs with
  | nil =>
    intro rs hv hinv
    rcases hinv with ⟨hst, hsucc, hcas, hobs⟩ | hB
    · exfalso
      have hlen : 0 < claims.length := List.length_pos.mpr hne
      simp only [validRun, Bool.and_eq_true, List.all_eq_true,
        List.mem_range] at hv
      have h1 := hv.1 0 hlen
      have h2 := hv.2 0 hlen
      rcases hobs 0 with h0 | h0
      · rw [h0] at h1
        simp at h1
      · rw [h0] at h2
        rw [hcas 0] at h2
        simp at h2
    · obtain ⟨w, hwlen, c, hc, hsw, _, hoth, hst⟩ := hB
      exact ⟨w, hwlen, c, hc, hsw, hoth, hst⟩
  | cons e es ih =>
    intro rs hv hinv
    cases e with
    | pre i =>
      simp only [validRun, Bool.and_eq_true, decide_eq_true_eq,
        beq_iff_eq] at hv
      obtain ⟨⟨hi, hobsnone⟩, hrest⟩ := hv
      have hnext : RaceInv claims msgs a b s0
          (claimStep sid claims rs (.pre i)) := by
        rcases hinv with ⟨hst, hsucc, hcas, hobs⟩ | ⟨w, hwlen, c, hc, hsw, hcw, hothers, hst⟩
        · left
          refine ⟨hst, hsucc, hcas, ?_⟩
          intro k
          by_cases hk : k = i
          · subst hk
            right
            simp only [claimStep, updF_same]
            rw [hst, obs_initial msgs a b s0 sid hid hw ha]
          · simp only [claimStep]
            rw [updF_ne _ _ _ _ hk]
            exact hobs k
        · right
          exact ⟨w, hwlen, c, hc, hsw, hcw, hothers, hst⟩
      exact ih _ hrest hnext
    | cas i =>
      simp only [validRun, Bool.and_eq_true, decide_eq_true_eq,
        beq_iff_eq, Bool.not_eq_true'] at hv
      obtain ⟨⟨⟨hi, hobsT⟩, hcasF⟩, hrest⟩ := hv
      have hgetc : claims[i]? = some claims[i] :=
        List.getElem?_eq_getElem hi
      have hnext : RaceInv claims msgs a b s0
          (claimStep sid claims rs (.cas i)) := by
        rcases hinv with ⟨hst, hsucc, hcas, hobs⟩ | ⟨w, hwlen, c, hc, hsw, hcw, hothers, hst⟩
        · right
          refine ⟨i, hi, claims[i], hgetc, ?_, ?_, ?_, ?_⟩
          · simp only [claimStep, hgetc]
            rw [hst, cas_waiting msgs a b s0 sid claims[i] hid hw ha]
            exact updF_same _ _ _
          · simp only [claimStep, hgetc]
            exact updF_same _ _ _
          · intro j hj
            simp only [claimStep, hgetc]
            rw [updF_ne _ _ _ _ hj]
            exact hsucc j
          · simp only [claimStep, hgetc]
            rw [hst, cas_waiting msgs a b s0 sid claims[i] hid hw ha]
        · right
          have hiw : i ≠ w := by
            intro h
            rw [h, hcw] at hcasF
            exact absurd hcasF (by simp)
          refine ⟨w, hwlen, c, hc, ?_, ?_, ?_, ?_⟩
          · simp only [claimStep, hgetc]
            rw [hst, cas_afterClaim msgs a b s0 sid _ _ _ c ha hb]
            rw [updF_ne _ _ _ _ (Ne.symm hiw)]
            exact hsw
          · simp only [claimStep, hgetc]
            rw [updF_ne _ _ _ _ (Ne.symm hiw)]
            exact hcw
          · intro j hj
            simp only [claimStep, hgetc]
            by_cases hji : j = i
            · subst hji
              rw [hst, cas_afterClaim msgs a b s0 sid _ _ _ c ha hb]
              exact updF_same _ _ _
            · rw [updF_ne _ _ _ _ hji]
              exact hothers j hj
          · simp only [claimStep, hgetc]
            rw [hst, cas_afterClaim msgs a b s0 sid _ _ _ c ha hb]
      exact ih _ hrest hnext

/-- `findOne({id: sid})` after an `updateOne` whose update document does
not touch `id`: it still matches, returning the old document or, when the
old document was the first match of the update filter, its image. -/
theorem find?_updateFirst_id (p : Session → Bool) (f : Session → Session)
    (hfid : ∀ s, (f s).id = s.id) (l : List Session) (sid : String)
    (d : Session) (hd : l.find? (fun s => s.id == sid) = some d) :
    ∃ d', (updateFirst p f l).1.find? (fun s => s.id == sid) = some d' ∧
      (d' = d ∨ (p d = true ∧ d' = f d)) := by
  induction l with
  | nil => simp [List.find?] at hd
  | cons x xs ih =>
    have hfxid : ((f x).id == sid) = (x.id == sid) := by
      rw [hfid x]
    cases hxid : (x.id == sid) with
    | true =>
      have hdx : x = d := by
        simp only [List.find?_cons, hxid, if_true] at hd
        exact Option.some_inj.mp hd
      subst hdx
      by_cases hpx : p x = true
      · refine ⟨f x, ?_, Or.inr ⟨hpx, rfl⟩⟩
        simp only [updateFirst, hpx, if_true, List.find?_cons,
          hfxid, hxid, if_true]
      · refine ⟨x, ?_, Or.inl rfl⟩
        simp only [updateFirst, hpx, Bool.false_eq_true, if_false,
          List.find?_cons, hxid, if_true]
    | false =>
      simp only [List.find?_cons, hxid, Bool.false_eq_true, if_false] at hd
      by_cases hpx : p x = true
      · refine ⟨d, ?_, Or.inl rfl⟩
        simp only [updateFirst, hpx, if_true, List.find?_cons,
          hfxid, hxid, Bool.false_eq_true, if_false]
        exact hd
      · obtain ⟨d', hfind, hcase⟩ := ih hd
        refine ⟨d', ?_, hcase⟩
        simp only [updateFirst, hpx, Bool.false_eq_true, if_false,
          List.find?_cons, hxid, if_false]
        exact hfind

/-! ## Stores reachable through the subsystem's operations -/

/-- Stores reachable through the operations named by the invariant claims:
session creation (as issued by the chat front-end), agent claim, close,
and message persistence on either path. -/
inductive Reach : Store → Prop
  | init : Reach ⟨[], []⟩
  | create (st : Store) (inp : CreateInput) (now : Nat) :
      Reach st → Reach (createSessionSock st inp now).1
  | join (st : Store) (sid ag an : String) (now : Nat) :
      Reach st → Reach (agentJoinSession st sid ag an now).1
  | close (st : Store) (sid : String) (now : Nat) :
      Reach st → Reach (closeSession st sid now).1
  | send (st : Store) (inp : MsgInput) (now : Nat) (ok : Bool) :
      Reach st → Reach (sendMessage st inp now ok).store
  | post (st : Store) (inp : RestMsgInput) (now : Nat) :
      Reach st → Reach (postChatMessage st inp now).1

/-- The agent-field/status relation that actually holds on every reachable
session: an active session carries a non-empty agent id, and a session
carrying a non-empty agent id is active or closed (closing does not clear
the agent fields). -/
def AgentOk (s : Session) : Prop :=
  (s.status = "active" → agentSet s = true) ∧
  (agentSet s = true → s.status = "active" ∨ s.status = "closed")

def AgentInv (st : Store) : Prop := ∀ s ∈ st.sessions, AgentOk s

theorem agentInv_reach (st : Store) (h : Reach st) : AgentInv st := by
  induction h with
  | init => intro s hs; simp at hs
  | create st inp now _ ih =>
    intro s hs
    unfold createSessionSock at hs
    by_cases hval : (inp.id == "" || inp.userEmail == "") = true
    · rw [if_pos hval] at hs
      exact ih s hs
    · rw [if_neg hval] at hs
      cases hfs : findSession st inp.id with
      | some s1 =>
        rw [hfs] at hs
        exact ih s hs
      | none =>
        rw [hfs] at hs
        simp only at hs
        rcases List.mem_append.mp hs with h' | h'
        · exact ih s h'
        · have hseq : s = sessionDocOf inp now := by
            simpa using h'
          subst hseq
          constructor
          · intro hst
            simp [sessionDocOf] at hst
          · intro hag
            simp [agentSet, sessionDocOf] at hag
  | join st sid ag an now _ ih =>
    intro s hs
    unfold agentJoinSession at hs
    by_cases hval : (sid == "" || ag == "" || an == "") = true
    · rw [if_pos hval] at hs
      exact ih s hs
    · rw [if_neg hval] at hs
      have hag : ¬(ag = "") := by
        simp only [Bool.or_eq_true, beq_iff_eq] at hval
        push_neg at hval
        exact hval.1.2
      cases hfs : findSession st sid with
      | none =>
        rw [hfs] at hs
        exact ih s hs
      | some s1 =>
        rw [hfs] at hs
        simp only at hs
        by_cases hact : (s1.status == "active") = true
        · rw [if_pos hact] at hs
          exact ih s hs
        · rw [if_neg hact] at hs
          by_cases hcl : (s1.status == "closed") = true
          · rw [if_pos hcl] at hs
            exact ih s hs
          · rw [if_neg hcl] at hs
            have hmem : s ∈ (agentJoinUpdate st sid ag an now).1.sessions := by
              by_cases hm : (agentJoinUpdate st sid ag an now).2 = true
              · rw [if_pos hm] at hs
                cases hfs2 : findSession (agentJoinUpdate st sid ag an now).1 sid with
                | some u =>
                  rw [hfs2] at hs
                  exact hs
                | none =>
                  rw [hfs2] at hs
                  exact hs
              · rw [if_neg hm] at hs
                exact hs
            unfold agentJoinUpdate at hmem
            rcases mem_updateFirst _ _ _ s hmem with h' | ⟨y, hy, _, rfl⟩
            · exact ih s h'
            · constructor
              · intro _
                simp [agentSet, hag]
              · intro _
                left
                rfl
  | close st sid now _ ih =>
    intro s hs
    unfold closeSession at hs
    by_cases hval : (sid == "") = true
    · rw [if_pos hval] at hs
      exact ih s hs
    · rw [if_neg hval] at hs
      rcases mem_updateFirst _ _ _ s hs with h' | ⟨y, hy, _, rfl⟩
      · exact ih s h'
      · have hagy := ih y hy
        constructor
        · intro hst
          simp at hst
        · intro _
          right
          rfl
  | send st inp now ok _ ih =>
    intro s hs
    unfold sendMessage at hs
    by_cases hval : (inp.sessionId == "" || inp.message == "" || inp.sender == "") = true
    · rw [if_pos hval] at hs
      exact ih s hs
    · rw [if_neg hval] at hs
      cases hfs : findSession st inp.sessionId with
      | none =>
        rw [hfs] at hs
        exact ih s hs
      | some s1 =>
        rw [hfs] at hs
        simp only at hs
        by_cases hcl : (s1.status == "closed") = true
        · rw [if_pos hcl] at hs
          exact ih s hs
        · rw [if_neg hcl] at hs
          cases hdup : (if strTruthy inp.id then inp.id.bind (findMessageById st) else none) with
          | some m0 =>
            rw [hdup] at hs
            exact ih s hs
          | none =>
            rw [hdup] at hs
            by_cases hok : ok = true
            · rw [if_pos hok] at hs
              simp only at hs
              rcases mem_updateFirst _ _ _ s hs with h' | ⟨y, hy, _, rfl⟩
              · exact ih s h'
              · have hagy := ih y hy
                constructor
                · intro hst
                  exact hagy.1 hst
                · intro hag2
                  exact hagy.2 hag2
            · rw [if_neg hok] at hs
              exact ih s hs
  | post st inp now _ ih =>
    intro s hs
    unfold postChatMessage at hs
    cases hfs : findSession st inp.sessionId with
    | none =>
      rw [hfs] at hs
      exact ih s hs
    | some s1 =>
      rw [hfs] at hs
      simp only at hs
      by_cases hcl : (s1.status == "closed") = true
      · rw [if_pos hcl] at hs
        exact ih s hs
      · rw [if_neg hcl] at hs
        by_cases hag2 : (inp.sender == "agent" && !agentSet s1) = true
        · rw [if_pos hag2] at hs
          exact ih s hs
        · rw [if_neg hag2] at hs
          cases hins : insertMessageUnique st
              { id := some inp.id, sessionId := inp.sessionId,
                sender := inp.sender, message := inp.message,
                createdAt := now } with
          | ok st' =>
            rw [hins] at hs
            have : st'.sessions = st.sessions := by
              unfold insertMessageUnique at hins
              by_cases hdup : (st.messages.any
                  (fun m => m.id == some inp.id)) = true
              · rw [if_pos hdup] at hins
                cases hins
              · rw [if_neg hdup] at hins
                cases hins
                rfl
            rw [this] at hs
            exact ih s hs
          | error e =>
            rw [hins] at hs
            exact ih s hs

/-! ## Further helper lemmas -/

/-- An `updateOne` that matched nothing leaves the collection unchanged. -/
theorem updateFirst_false_eq (p : α → Bool) (f : α → α) (l : List α)
    (h : (updateFirst p f l).2 = false) : (updateFirst p f l).1 = l := by
  induction l with
  | nil => rfl
  | cons x xs ih =>
    by_cases hp : p x = true
    · simp [updateFirst, hp] at h
    · simp only [updateFirst, hp, Bool.false_eq_true, if_false] at h ⊢
      rw [ih h]

/-- A matching `updateOne` leaves the `f`-image of some matched document in
the collection. -/
theorem updateFirst_true_mem (p : α → Bool) (f : α → α) (l : List α)
    (h : (updateFirst p f l).2 = true) :
    ∃ y ∈ l, p y = true ∧ f y ∈ (updateFirst p f l).1 := by
  induction l with
  | nil => simp [updateFirst] at h
  | cons x xs ih =>
    by_cases hp : p x = true
    · exact ⟨x, List.mem_cons_self x xs, hp, by
        simp [updateFirst, hp]⟩
    · simp only [updateFirst, hp, Bool.false_eq_true, if_false] at h ⊢
      obtain ⟨y, hy, hpy, hmem⟩ := ih h
      exact ⟨y, List.mem_cons_of_mem x hy, hpy, List.mem_cons_of_mem x hmem⟩

/-- If `findOne` matches, `updateOne` with the same filter matches. -/
theorem updateFirst_matched_of_find? (p : α → Bool) (f : α → α)
    (l : List α) (d : α) (h : l.find? p = some d) :
    (updateFirst p f l).2 = true := by
  induction l with
  | nil => simp [List.find?] at h
  | cons x xs ih =>
    by_cases hp : p x = true
    · simp [updateFirst, hp]
    · have hp' : p x = false := by simpa using hp
      simp only [List.find?_cons, hp', Bool.false_eq_true, if_false] at h
      simp only [updateFirst, hp', Bool.false_eq_true, if_false]
      exact ih h

/-- The store resulting from an `agent-join-session` call is either left
untouched or is exactly the store after the conditional update. -/
theorem agentJoinSession_store_cases (st : Store) (sid ag an : String)
    (now : Nat) :
    (agentJoinSession st sid ag an now).1 = st ∨
    (agentJoinSession st sid ag an now).1 =
      (agentJoinUpdate st sid ag an now).1 := by
  unfold agentJoinSession
  by_cases hval : (sid == "" || ag == "" || an == "") = true
  · rw [if_pos hval]
    exact Or.inl rfl
  · rw [if_neg hval]
    cases hfs : findSession st sid with
    | none => exact Or.inl rfl
    | some s1 =>
      simp only
      by_cases hact : (s1.status == "active") = true
      · rw [if_pos hact]
        exact Or.inl rfl
      · rw [if_neg hact]
        by_cases hcl : (s1.status == "closed") = true
        · rw [if_pos hcl]
          exact Or.inl rfl
        · rw [if_neg hcl]
          by_cases hm : (agentJoinUpdate st sid ag an now).2 = true
          · rw [if_pos hm]
            cases hfs2 : findSession (agentJoinUpdate st sid ag an now).1 sid with
            | some u => exact Or.inr rfl
            | none => exact Or.inr rfl
          · rw [if_neg hm]
            exact Or.inr rfl

/-- The trace of a `send-message` execution is empty or consists of
exactly the persist, the broadcast and the timestamp bump, in that order,
for one message document that ends up persisted. -/
theorem sendMessage_trace_shape (st : Store) (inp : MsgInput) (now : Nat)
    (ok : Bool) :
    (sendMessage st inp now ok).trace = [] ∨
    ∃ doc, (sendMessage st inp now ok).trace =
        [Action.insertMessage doc,
         Action.emitNewMessage inp.sessionId doc,
         Action.setSessionUpdatedAt inp.sessionId now] ∧
      doc ∈ (sendMessage st inp now ok).store.messages := by
  unfold sendMessage
  by_cases hval : (inp.sessionId == "" || inp.message == "" || inp.sender == "") = true
  · rw [if_pos hval]
    exact Or.inl rfl
  · rw [if_neg hval]
    cases hfs : findSession st inp.sessionId with
    | none => exact Or.inl rfl
    | some s =>
      simp only
      by_cases hcl : (s.status == "closed") = true
      · rw [if_pos hcl]
        exact Or.inl rfl
      · rw [if_neg hcl]
        cases hdup : (if strTruthy inp.id then inp.id.bind (findMessageById st) else none) with
        | some m0 => exact Or.inl rfl
        | none =>
          by_cases hok : ok = true
          · rw [if_pos hok]
            refine Or.inr ⟨_, rfl, ?_⟩
            simp
          · rw [if_neg hok]
            exact Or.inl rfl

/-- **C6.**  In the message pipeline, the `new-message` broadcast to the
session room happens only after the durable insert of that message: in
every execution of the `send-message` handler (including those where the
insert fails), any broadcast of a message `m` is preceded in the effect
trace by the insert of `m`, and `m` is present in the resulting store —
no phantom message is ever announced. -/
theorem C6_persist_before_broadcast (st : Store) (inp : MsgInput)
    (now : Nat) (insertOk : Bool) (l r : List Action) (room : String)
    (m : Message)
    (h : (sendMessage st inp now insertOk).trace =
      l ++ Action.emitNewMessage room m :: r) :
    Action.insertMessage m ∈ l ∧
      m ∈ (sendMessage st inp now insertOk).store.messages := by
  rcases sendMessage_trace_shape st inp now insertOk with h0 | ⟨doc, htr, hmem⟩
  · rw [h0] at h
    exact absurd h.symm (List.append_ne_nil_of_right_ne_nil l (by simp))
  · rw [htr] at h
    match l, h with
    | [], h => simp at h
    | [a], h =>
      have h1 : a = Action.insertMessage doc := by
        have := congrArg (fun t => t.head?) h.symm
        simpa using this
      have h2 : room = inp.sessionId ∧ m = doc := by
        have := congrArg (fun t => t[1]?) h.symm
        simpa using this
      rw [h2.2, h1]
      exact ⟨List.mem_singleton.mpr rfl, hmem⟩
    | [a, b], h =>
      exfalso
      have := congrArg (fun t => t[2]?) h.symm
      simp at this
    | a :: b :: c :: d :: t, h =>
      exfalso
      have := congrArg List.length h
      simp at this

/-- A concrete open session, message input and document for the C6
witness execution. -/
def c6Store : Store :=
  ⟨[⟨"s1", "active", some "A", some "Ag", "u@x", "U", "hi", 1, 1⟩], []⟩

def c6Inp : MsgInput := ⟨some "m1", "s1", "user", "hello"⟩

def c6Doc : Message := ⟨some "m1", "s1", "user", "hello", 5⟩

theorem C6_persist_before_broadcast_witness :
    (sendMessage c6Store c6Inp 5 true).trace =
      [Action.insertMessage c6Doc] ++ Action.emitNewMessage "s1" c6Doc ::
        [Action.setSessionUpdatedAt "s1" 5] ∧
    (Action.insertMessage c6Doc ∈ [Action.insertMessage c6Doc] ∧
      c6Doc ∈ (sendMessage c6Store c6Inp 5 true).store.messages) :=
  ⟨by decide,
   C6_persist_before_broadcast c6Store c6Inp 5 true
     [Action.insertMessage c6Doc] [Action.setSessionUpdatedAt "s1" 5]
     "s1" c6Doc (by decide)⟩

/-- **C1.**  The waiting-to-active transition of `agent-join-session` is a
single atomic conditional update on `id = X ∧ status = waiting`:
(1) the handler succeeds only when that conditional update matched a
document; (2) when the update matches zero documents the caller gets a
failure (`success:false`, the Conflict outcome) and the store is
unchanged; (3) on a store whose unique `X`-session is waiting, the claim
succeeds and installs exactly the claiming agent's identity; (4) among
any non-empty set of concurrent claims on one waiting session — any valid
interleaving of their pre-reads and conditional updates — exactly one
claim succeeds, and the session ends `active` carrying the winner's
`agentId` and `agentName`. -/
theorem C1_claim_race_atomic :
    (∀ st sid ag an now,
      (agentJoinSession st sid ag an now).2.isOk = true →
        (agentJoinUpdate st sid ag an now).2 = true) ∧
    (∀ st sid ag an now,
      (agentJoinUpdate st sid ag an now).2 = false →
        (agentJoinSession st sid ag an now).2.isOk = false ∧
        (agentJoinSession st sid ag an now).1 = st) ∧
    (∀ msgs a b s0 sid ag an now,
      s0.id = sid → s0.status = "waiting" →
      (∀ s ∈ a, (s.id == sid) = false) →
      sid ≠ "" → ag ≠ "" → an ≠ "" →
      agentJoinSession ⟨a ++ s0 :: b, msgs⟩ sid ag an now =
        (⟨a ++ claimedDoc s0 ⟨ag, an, now⟩ :: b, msgs⟩,
         JoinOutcome.ok (claimedDoc s0 ⟨ag, an, now⟩))) ∧
    (∀ sid claims msgs a b s0 evs,
      s0.id = sid → s0.status = "waiting" →
      (∀ s ∈ a, (s.id == sid) = false) →
      (∀ s ∈ b, (s.id == sid) = false) →
      claims ≠ [] →
      validRun sid claims (initRun ⟨a ++ s0 :: b, msgs⟩) evs = true →
      ∃ w, w < claims.length ∧ ∃ c, claims[w]? = some c ∧
        (runClaims sid claims (initRun ⟨a ++ s0 :: b, msgs⟩) evs).succeeded w
          = true ∧
        (∀ j, j ≠ w →
          (runClaims sid claims (initRun ⟨a ++ s0 :: b, msgs⟩) evs).succeeded j
            = false) ∧
        (runClaims sid claims (initRun ⟨a ++ s0 :: b, msgs⟩) evs).store =
          ⟨a ++ claimedDoc s0 c :: b, msgs⟩) := by
  refine ⟨?_, ?_, ?_, ?_⟩
  · intro st sid ag an now hok
    unfold agentJoinSession at hok
    by_cases hval : (sid == "" || ag == "" || an == "") = true
    · rw [if_pos hval] at hok
      simp [JoinOutcome.isOk] at hok
    · rw [if_neg hval] at hok
      cases hfs : findSession st sid with
      | none =>
        rw [hfs] at hok
        simp [JoinOutcome.isOk] at hok
      | some s1 =>
        rw [hfs] at hok
        simp only at hok
        by_cases hact : (s1.status == "active") = true
        · rw [if_pos hact] at hok
          simp [JoinOutcome.isOk] at hok
        · rw [if_neg hact] at hok
          by_cases hcl : (s1.status == "closed") = true
          · rw [if_pos hcl] at hok
            simp [JoinOutcome.isOk] at hok
          · rw [if_neg hcl] at hok
            by_cases hm : (agentJoinUpdate st sid ag an now).2 = true
            · exact hm
            · rw [if_neg hm] at hok
              simp [JoinOutcome.isOk] at hok
  · intro st sid ag an now hnm
    unfold agentJoinSession
    by_cases hval : (sid == "" || ag == "" || an == "") = true
    · rw [if_pos hval]
      exact ⟨rfl, rfl⟩
    · rw [if_neg hval]
      cases hfs : findSession st sid with
      | none => exact ⟨rfl, rfl⟩
      | some s1 =>
        simp only
        by_cases hact : (s1.status == "active") = true
        · rw [if_pos hact]
          exact ⟨rfl, rfl⟩
        · rw [if_neg hact]
          by_cases hcl : (s1.status == "closed") = true
          · rw [if_pos hcl]
            exact ⟨rfl, rfl⟩
          · rw [if_neg hcl]
            rw [if_neg (by
              rw [hnm]
              simp)]
            refine ⟨rfl, ?_⟩
            show (agentJoinUpdate st sid ag an now).1 = st
            unfold agentJoinUpdate at hnm ⊢
            simp only at hnm ⊢
            rw [updateFirst_false_eq _ _ _ hnm]
  · intro msgs a b s0 sid ag an now hid hw ha hsid hag han
    unfold agentJoinSession
    rw [if_neg (by
      simp only [Bool.or_eq_true, beq_iff_eq]
      push_neg
      exact ⟨⟨hsid, hag⟩, han⟩)]
    have hfs : findSession ⟨a ++ s0 :: b, msgs⟩ sid = some s0 := by
      unfold findSession
      exact find?_append_cons _ a b s0 (fun y hy => ha y hy) (by simp [hid])
    rw [hfs]
    simp only
    rw [if_neg (by
      rw [hw]
      simp)]
    rw [if_neg (by
      rw [hw]
      simp)]
    have hcas := cas_waiting msgs a b s0 sid ⟨ag, an, now⟩ hid hw ha
    rw [hcas]
    simp only [if_true]
    have hfs2 : findSession ⟨a ++ claimedDoc s0 ⟨ag, an, now⟩ :: b, msgs⟩ sid =
        some (claimedDoc s0 ⟨ag, an, now⟩) := by
      unfold findSession
      exact find?_append_cons _ a b _ (fun y hy => ha y hy)
        (by simp [claimedDoc, hid])
    rw [hfs2]
  · intro sid claims msgs a b s0 evs hid hw ha hb hne hv
    exact race_aux sid claims msgs a b s0 hid hw ha hb hne evs
      (initRun ⟨a ++ s0 :: b, msgs⟩) hv
      (Or.inl ⟨rfl, fun _ => rfl, fun _ => rfl, fun _ => Or.inl rfl⟩)

/-- Concrete data for the C1 witness: two agents race for one waiting
session; the schedule interleaves both pre-reads before both conditional
updates, and agent `A` (claim 0) wins. -/
def c1Sess : Session := ⟨"s1", "waiting", none, none, "u@x", "U", "hi", 1, 1⟩

def c1Claims : List ClaimReq := [⟨"A", "Alice", 2⟩, ⟨"B", "Bob", 3⟩]

def c1Evs : List CEv := [.pre 0, .pre 1, .cas 0, .cas 1]

theorem C1_claim_race_atomic_witness :
    c1Sess.id = "s1" ∧ c1Sess.status = "waiting" ∧ c1Claims ≠ [] ∧
    validRun "s1" c1Claims (initRun ⟨[] ++ c1Sess :: [], []⟩) c1Evs = true ∧
    (∃ w, w < c1Claims.length ∧ ∃ c, c1Claims[w]? = some c ∧
      (runClaims "s1" c1Claims (initRun ⟨[] ++ c1Sess :: [], []⟩)
        c1Evs).succeeded w = true ∧
      (∀ j, j ≠ w →
        (runClaims "s1" c1Claims (initRun ⟨[] ++ c1Sess :: [], []⟩)
          c1Evs).succeeded j = false) ∧
      (runClaims "s1" c1Claims (initRun ⟨[] ++ c1Sess :: [], []⟩)
        c1Evs).store = ⟨[] ++ claimedDoc c1Sess c :: [], []⟩) :=
  ⟨rfl, rfl, by decide, by decide,
   C1_claim_race_atomic.2.2.2 "s1" c1Claims [] [] [] c1Sess c1Evs rfl rfl
     (by simp) (by simp) (by decide) (by decide)⟩

/-- A claimed-then-closed session: status `closed` with the agent fields
still set, as `close-session` leaves them. -/
def c2Sess : Session :=
  ⟨"s1", "closed", some "A", some "Agent", "u@x", "U", "hi", 1, 3⟩

def c2Store : Store := ⟨[c2Sess], []⟩

def c2Patch : UpdatePatch := ⟨some "waiting", none, none⟩

/-- **C2 (counterexample).**  The update endpoint
(`ChatService.updateSession`, reached from `PUT /api/chat-sessions` whose
schema admits a `status` field) applies an unguarded `$set`: on a closed
session it changes the status back to `waiting`, refuting the claim that
no operation of the subsystem ever changes a closed session's status. -/
theorem C2_closed_terminal_counterexample :
    (findSession c2Store "s1").map Session.status = some "closed" ∧
    ((updateSessionSvc c2Store "s1" c2Patch 9).2).map Session.status =
      some "waiting" ∧
    (findSession (updateSessionSvc c2Store "s1" c2Patch 9).1 "s1").map
      Session.status = some "waiting" := by
  decide

/-- **C2 (amended).**  Once a session is closed, the agent-claim and close
operations never change its status again: any document the claim or close
handler leaves under that id is still `closed`, and closing an
already-closed session is legal and idempotent (the update matches and the
status stays `closed`).  The generic update endpoint, whose `$set` carries
a caller-chosen `status` with no guard, is excluded: it can change a
closed session's status (see the counterexample). -/
theorem C2_closed_terminal_amended (st : Store) (sid sid2 ag an : String)
    (t : Nat) (s : Session) (hfind : findSession st sid = some s)
    (hcl : s.status = "closed") :
    (∀ s', findSession (agentJoinSession st sid2 ag an t).1 sid = some s' →
      s'.status = "closed") ∧
    (∀ s', findSession (closeSession st sid2 t).1 sid = some s' →
      s'.status = "closed") ∧
    (sid2 = sid → sid ≠ "" → (closeSession st sid2 t).2 = true) := by
  refine ⟨?_, ?_, ?_⟩
  · intro s' hs'
    rcases agentJoinSession_store_cases st sid2 ag an t with hc | hc
    · rw [hc, hfind] at hs'
      rw [← Option.some_inj.mp hs']
      exact hcl
    · rw [hc] at hs'
      obtain ⟨d', hfind', hcases⟩ := find?_updateFirst_id
        (fun u => u.id == sid2 && u.status == "waiting")
        (fun u => { u with
          status := "active", agentId := some ag,
          agentName := some an, updatedAt := t })
        (fun u => rfl) st.sessions sid s hfind
      have hs'd : s' = d' := by
        have : findSession
            { st with sessions := (updateFirst
              (fun u => u.id == sid2 && u.status == "waiting")
              (fun u => { u with
                status := "active", agentId := some ag,
                agentName := some an, updatedAt := t }) st.sessions).1 }
            sid = some d' := hfind'
        rw [show (agentJoinUpdate st sid2 ag an t).1 =
          { st with sessions := (updateFirst
            (fun u => u.id == sid2 && u.status == "waiting")
            (fun u => { u with
              status := "active", agentId := some ag,
              agentName := some an, updatedAt := t }) st.sessions).1 }
          from rfl] at hs'
        rw [this] at hs'
        exact Option.some_inj.mp hs'.symm
      rcases hcases with h' | ⟨hp, h'⟩
      · rw [hs'd, h']
        exact hcl
      · exfalso
        rw [hcl] at hp
        simp at hp
  · intro s' hs'
    unfold closeSession at hs'
    by_cases hsid2 : (sid2 == "") = true
    · rw [if_pos hsid2] at hs'
      rw [hfind] at hs'
      rw [← Option.some_inj.mp hs']
      exact hcl
    · rw [if_neg hsid2] at hs'
      obtain ⟨d', hfind', hcases⟩ := find?_updateFirst_id
        (fun u => u.id == sid2)
        (fun u => { u with status := "closed", updatedAt := t })
        (fun u => rfl) st.sessions sid s hfind
      have hs'd : s' = d' := by
        rw [show findSession { st with sessions := (updateFirst
            (fun u => u.id == sid2)
            (fun u => { u with status := "closed", updatedAt := t })
            st.sessions).1 } sid =
          (updateFirst (fun u => u.id == sid2)
            (fun u => { u with status := "closed", updatedAt := t })
            st.sessions).1.find? (fun u => u.id == sid) from rfl] at hs'
        rw [hfind'] at hs'
        exact Option.some_inj.mp hs'.symm
      rcases hcases with h' | ⟨_, h'⟩
      · rw [hs'd, h']
        exact hcl
      · rw [hs'd, h']
  · intro heq hne
    subst heq
    unfold closeSession
    rw [if_neg (by simpa using hne)]
    exact updateFirst_matched_of_find? _ _ _ s hfind

theorem C2_closed_terminal_amended_witness :
    findSession c2Store "s1" = some c2Sess ∧ c2Sess.status = "closed" ∧
    ((∀ s', findSession (agentJoinSession c2Store "s1" "B" "Bee" 9).1 "s1" =
        some s' → s'.status = "closed") ∧
     (∀ s', findSession (closeSession c2Store "s1" 9).1 "s1" = some s' →
        s'.status = "closed") ∧
     ("s1" = "s1" → "s1" ≠ "" → (closeSession c2Store "s1" 9).2 = true)) :=
  ⟨rfl, rfl, C2_closed_terminal_amended c2Store "s1" "s1" "B" "Bee" 9 c2Sess
    rfl rfl⟩

/-- Inputs of the run create → claim → close that produces a closed
session still carrying the winning agent's identity. -/
def c3Inp : CreateInput := ⟨"s1", "u@x", "U", "hi"⟩

def c3Store : Store :=
  (closeSession (agentJoinSession (createSessionSock ⟨[], []⟩ c3Inp 1).1
    "s1" "A" "Agent" 2).1 "s1" 3).1

def c3Sess : Session :=
  ⟨"s1", "closed", some "A", some "Agent", "u@x", "U", "hi", 1, 3⟩

/-- **C3 (counterexample).**  `close-session` does not clear the agent
fields, so create → claim → close reaches a session with a non-empty
`agentId` and status `closed`: `agentId` set-and-non-empty is *not*
equivalent to status `active` over reachable stores. -/
theorem C3_agent_iff_active_counterexample :
    ¬ (∀ st, Reach st → ∀ s ∈ st.sessions,
        (agentSet s = true ↔ s.status = "active")) := by
  intro h
  have hr : Reach c3Store :=
    Reach.close _ "s1" 3 (Reach.join _ "s1" "A" "Agent" 2
      (Reach.create _ c3Inp 1 Reach.init))
  have hmem : c3Sess ∈ c3Store.sessions := by decide
  have hcontr := (h c3Store hr c3Sess hmem).mp (by decide)
  exact absurd hcontr (by decide)

/-- **C3 (amended).**  Over all stores reachable through the subsystem's
operations (create as issued by the front-end, agent claim, close, message
persistence): an `active` session always carries a set, non-empty
`agentId`, and a session with a set, non-empty `agentId` is `active` or
`closed` — the equivalence claimed by the spec fails only in that closing
does not clear the agent fields. -/
theorem C3_agent_status_amended (st : Store) (h : Reach st) :
    ∀ s ∈ st.sessions,
      (s.status = "active" → agentSet s = true) ∧
      (agentSet s = true → s.status = "active" ∨ s.status = "closed") :=
  agentInv_reach st h

theorem C3_agent_status_amended_witness :
    Reach c3Store ∧
    (∀ s ∈ c3Store.sessions,
      (s.status = "active" → agentSet s = true) ∧
      (agentSet s = true → s.status = "active" ∨ s.status = "closed")) :=
  have hr : Reach c3Store :=
    Reach.close _ "s1" 3 (Reach.join _ "s1" "A" "Agent" 2
      (Reach.create _ c3Inp 1 Reach.init))
  ⟨hr, C3_agent_status_amended c3Store hr⟩

/-- Number of stored messages carrying a given id. -/
def countIdMsgs (st : Store) (mid : String) : Nat :=
  (st.messages.filter (fun m => m.id == some mid)).length

def c4Sess : Session :=
  ⟨"s1", "active", some "A", some "Agent", "u@x", "U", "hi", 1, 2⟩

def c4Msg : Message := ⟨some "m1", "s1", "user", "hello", 2⟩

def c4Store : Store := ⟨[c4Sess], [c4Msg]⟩

def c4Inp : RestMsgInput := ⟨"m1", "s1", "user", "hello again"⟩

/-- **C4 (counterexample).**  On the REST create-message endpoint a
submission whose id is already persisted is *not* answered with the
previously stored message flagged `duplicate=true`: the endpoint has no
dedup branch, so the insert is rejected by the unique index and the caller
receives a store error (the store still gains no message). -/
theorem C4_dedup_counterexample :
    (postChatMessage c4Store c4Inp 5).1 = c4Store ∧
    (postChatMessage c4Store c4Inp 5).2 =
      PostMsgOutcome.storeErr "E11000 duplicate key error: message_id_unique" ∧
    (∀ m, ¬((postChatMessage c4Store c4Inp 5).2 =
      PostMsgOutcome.created m)) := by
  refine ⟨by decide, by decide, ?_⟩
  intro m h
  rw [(by decide : (postChatMessage c4Store c4Inp 5).2 =
    PostMsgOutcome.storeErr "E11000 duplicate key error: message_id_unique")]
    at h
  cases h

/-- **C4 (amended).**  On the real-time `send-message` pipeline,
submission is idempotent in the message id: (1) a submission whose id is
already persisted inserts nothing, leaves the store unchanged and answers
with the previously stored message flagged `duplicate=true`; (2) sending
the same message twice persists it once — the first call inserts the
document, the second returns it flagged `duplicate=true` and the store
holds exactly one more message with that id than before.  (3) On the REST
create-message endpoint a duplicate id is instead rejected by the unique
index with a store error, also leaving the store unchanged. -/
theorem C4_dedup_amended :
    (∀ st inp now ok mid m0 s,
      inp.id = some mid → ¬(mid = "") →
      ¬(inp.sessionId = "") → ¬(inp.message = "") → ¬(inp.sender = "") →
      findSession st inp.sessionId = some s → ¬(s.status = "closed") →
      findMessageById st mid = some m0 →
      sendMessage st inp now ok = ⟨st, [], .ok m0 true⟩) ∧
    (∀ st inp now now2 ok2 mid s,
      inp.id = some mid → ¬(mid = "") →
      ¬(inp.sessionId = "") → ¬(inp.message = "") → ¬(inp.sender = "") →
      findSession st inp.sessionId = some s → ¬(s.status = "closed") →
      findMessageById st mid = none →
      (sendMessage st inp now true).outcome =
        .ok ⟨inp.id, inp.sessionId, inp.sender, inp.message, now⟩ false ∧
      sendMessage (sendMessage st inp now true).store inp now2 ok2 =
        ⟨(sendMessage st inp now true).store, [],
         .ok ⟨inp.id, inp.sessionId, inp.sender, inp.message, now⟩ true⟩ ∧
      countIdMsgs (sendMessage st inp now true).store mid =
        countIdMsgs st mid + 1) ∧
    (∀ st inp now m0, findSession st inp.sessionId ≠ none →
      (∀ s, findSession st inp.sessionId = some s →
        ¬(s.status = "closed") ∧ (inp.sender = "agent" → agentSet s = true)) →
      findMessageById st inp.id = some m0 →
      (postChatMessage st inp now).1 = st ∧
      (postChatMessage st inp now).2 =
        .storeErr "E11000 duplicate key error: message_id_unique") := by
  have socketDup : ∀ (st : Store) (inp : MsgInput) (now : Nat) (ok : Bool)
      (mid : String) (m0 : Message) (s : Session),
      inp.id = some mid → ¬(mid = "") →
      ¬(inp.sessionId = "") → ¬(inp.message = "") → ¬(inp.sender = "") →
      findSession st inp.sessionId = some s → ¬(s.status = "closed") →
      findMessageById st mid = some m0 →
      sendMessage st inp now ok = ⟨st, [], .ok m0 true⟩ := by
    intro st inp now ok mid m0 s hidm hmid hsid hmsg hsnd hfs hcl hfm
    unfold sendMessage
    rw [if_neg (by simp [hsid, hmsg, hsnd])]
    rw [hfs]
    simp only
    rw [if_neg (by simp [hcl])]
    rw [show (if strTruthy inp.id then inp.id.bind (findMessageById st)
        else none) = some m0 by
      rw [hidm]
      simp [strTruthy, hmid, hfm]]
  refine ⟨socketDup, ?_, ?_⟩
  · intro st inp now now2 ok2 mid s hidm hmid hsid hmsg hsnd hfs hcl hfm
    have hr1 : sendMessage st inp now true =
        ⟨⟨(updateFirst (fun t => t.id == inp.sessionId)
            (fun t => { t with updatedAt := now })
            st.sessions).1,
          st.messages ++ [⟨inp.id, inp.sessionId, inp.sender, inp.message, now⟩]⟩,
         [.insertMessage ⟨inp.id, inp.sessionId, inp.sender, inp.message, now⟩,
          .emitNewMessage inp.sessionId
            ⟨inp.id, inp.sessionId, inp.sender, inp.message, now⟩,
          .setSessionUpdatedAt inp.sessionId now],
         .ok ⟨inp.id, inp.sessionId, inp.sender, inp.message, now⟩ false⟩ := by
      unfold sendMessage
      rw [if_neg (by simp [hsid, hmsg, hsnd])]
      rw [hfs]
      simp only
      rw [if_neg (by simp [hcl])]
      rw [show (if strTruthy inp.id then inp.id.bind (findMessageById st)
          else none) = none by
        rw [hidm]
        simp [strTruthy, hmid, hfm]]
      rfl
    refine ⟨by rw [hr1], ?_, ?_⟩
    · -- second submission hits the dedup branch of the same pipeline
      have hfs2 : findSession (sendMessage st inp now true).store
          inp.sessionId = some s ∨
          ∃ d', findSession (sendMessage st inp now true).store
            inp.sessionId = some d' ∧ d'.status = s.status := by
        rw [hr1]
        obtain ⟨d', hfind', hcases⟩ := find?_updateFirst_id
          (fun t => t.id == inp.sessionId)
          (fun t => { t with updatedAt := now })
          (fun t => rfl) st.sessions inp.sessionId s hfs
        right
        refine ⟨d', hfind', ?_⟩
        rcases hcases with h' | ⟨_, h'⟩
        · rw [h']
        · rw [h']
      have hd : ∃ d', findSession (sendMessage st inp now true).store
          inp.sessionId = some d' ∧ d'.status = s.status := by
        rcases hfs2 with h | h
        · exact ⟨s, h, rfl⟩
        · exact h
      obtain ⟨d', hfind', hstat⟩ := hd
      have hfm2 : findMessageById (sendMessage st inp now true).store mid =
          some ⟨inp.id, inp.sessionId, inp.sender, inp.message, now⟩ := by
        rw [hr1]
        unfold findMessageById at hfm ⊢
        rw [show (⟨_, st.messages ++
          [⟨inp.id, inp.sessionId, inp.sender, inp.message, now⟩]⟩ :
            Store).messages = st.messages ++
          [⟨inp.id, inp.sessionId, inp.sender, inp.message, now⟩] from rfl]
        rw [List.find?_append, hfm]
        simp [hidm]
      exact socketDup _ inp now2 ok2 mid _ d' hidm hmid hsid hmsg hsnd
        hfind' (by rw [hstat]; exact hcl) hfm2
    · rw [hr1]
      unfold countIdMsgs
      rw [show (⟨_, st.messages ++
        [⟨inp.id, inp.sessionId, inp.sender, inp.message, now⟩]⟩ :
          Store).messages = st.messages ++
        [⟨inp.id, inp.sessionId, inp.sender, inp.message, now⟩] from rfl]
      rw [List.filter_append]
      simp [hidm]
  · intro st inp now m0 hfsne hok hfm
    unfold postChatMessage
    cases hfs : findSession st inp.sessionId with
    | none => exact absurd hfs hfsne
    | some s =>
      simp only
      obtain ⟨hcl, hagent⟩ := hok s hfs
      rw [if_neg (by simp [hcl])]
      rw [if_neg (by
        by_cases hsnd : inp.sender = "agent"
        · simp [hsnd, hagent hsnd]
        · simp [hsnd])]
      rw [show insertMessageUnique st
          ⟨some inp.id, inp.sessionId, inp.sender, inp.message, now⟩ =
          Except.error "E11000 duplicate key error: message_id_unique" by
        unfold insertMessageUnique
        rw [if_pos (by
          apply List.any_eq_true.mpr
          refine ⟨m0, List.mem_of_find?_eq_some hfm, ?_⟩
          have := List.find?_some hfm
          simpa using this)]]
      exact ⟨rfl, rfl⟩

theorem C4_dedup_amended_witness :
    c4Inp.sender = "user" ∧ findMessageById c4Store "m1" = some c4Msg ∧
    ((postChatMessage c4Store c4Inp 5).1 = c4Store ∧
     (postChatMessage c4Store c4Inp 5).2 =
       PostMsgOutcome.storeErr "E11000 duplicate key error: message_id_unique") ∧
    sendMessage c4Store ⟨some "m1", "s1", "user", "hi again"⟩ 7 true =
      ⟨c4Store, [], .ok c4Msg true⟩ :=
  ⟨rfl, rfl,
   C4_dedup_amended.2.2 c4Store c4Inp 5 c4Msg (by decide)
     (by
       intro s hs
       refine ⟨?_, ?_⟩
       · rw [show s = c4Sess from by
           have : findSession c4Store c4Inp.sessionId = some c4Sess := by
             decide
           rw [this] at hs
           exact (Option.some_inj.mp hs).symm]
         decide
       · intro hag
         exact absurd hag (by decide))
     (by decide),
   C4_dedup_amended.1 c4Store ⟨some "m1", "s1", "user", "hi again"⟩ 7 true
     "m1" c4Msg c4Sess rfl (by decide) (by decide) (by decide) (by decide)
     (by decide) (by decide) (by decide)⟩

/-- A waiting session with no assigned agent, and an agent-sender message
to it. -/
def c5Sess : Session := ⟨"s1", "waiting", none, none, "u@x", "U", "hi", 1, 1⟩

def c5Store : Store := ⟨[c5Sess], []⟩

def c5Inp : MsgInput := ⟨some "m1", "s1", "agent", "hello"⟩

def c5Doc : Message := ⟨some "m1", "s1", "agent", "hello", 5⟩

/-- **C5 (counterexample).**  The real-time `send-message` handler never
checks the agent-assignment condition: a message with sender role `agent`
to a waiting session with no assigned agent is accepted and persisted,
refuting the claimed only-if. -/
theorem C5_accept_counterexample :
    c5Inp.sender = "agent" ∧ agentSet c5Sess = false ∧
    findSession c5Store "s1" = some c5Sess ∧
    (sendMessage c5Store c5Inp 5 true).outcome = MsgOutcome.ok c5Doc false ∧
    c5Doc ∈ (sendMessage c5Store c5Inp 5 true).store.messages := by
  decide

/-- The three possible results of a `send-message` execution: an error
acknowledgment with no effects, a duplicate acknowledgment with no
effects, or a fresh insert. -/
theorem sendMessage_cases (st : Store) (inp : MsgInput) (now : Nat)
    (ok : Bool) :
    (∃ e, sendMessage st inp now ok = ⟨st, [], .err e⟩) ∨
    (∃ m0, sendMessage st inp now ok = ⟨st, [], .ok m0 true⟩) ∨
    (∃ doc, sendMessage st inp now ok =
      ⟨⟨(updateFirst (fun t => t.id == inp.sessionId)
          (fun t => { t with updatedAt := now }) st.sessions).1,
        st.messages ++ [doc]⟩,
       [.insertMessage doc, .emitNewMessage inp.sessionId doc,
        .setSessionUpdatedAt inp.sessionId now],
       .ok doc false⟩) := by
  unfold sendMessage
  by_cases hval : (inp.sessionId == "" || inp.message == "" ||
      inp.sender == "") = true
  · rw [if_pos hval]
    exact Or.inl ⟨_, rfl⟩
  · rw [if_neg hval]
    cases hfs : findSession st inp.sessionId with
    | none => exact Or.inl ⟨_, rfl⟩
    | some s =>
      simp only
      by_cases hcl : (s.status == "closed") = true
      · rw [if_pos hcl]
        exact Or.inl ⟨_, rfl⟩
      · rw [if_neg hcl]
        cases hdup : (if strTruthy inp.id
            then inp.id.bind (findMessageById st) else none) with
        | some m0 => exact Or.inr (Or.inl ⟨m0, rfl⟩)
        | none =>
          by_cases hok : ok = true
          · rw [if_pos hok]
            exact Or.inr (Or.inr ⟨_, rfl⟩)
          · rw [if_neg hok]
            exact Or.inl ⟨_, rfl⟩

/-- **C5 (amended).**  A fresh-id submission is accepted and persisted if
and only if its target session exists and is not closed and — on the REST
create-message endpoint only — an agent sender implies an assigned agent;
the real-time path checks only existence and non-closedness.  Every
rejected submission is reported as an explicit failure and inserts no
message document: a rejecting REST call and an erroring socket call leave
the store unchanged (and the socket call performs no effects at all). -/
theorem C5_accept_amended :
    (∀ st inp now, (∀ m ∈ st.messages, ¬(m.id = some inp.id)) →
      ((∃ m, (postChatMessage st inp now).2 = PostMsgOutcome.created m) ↔
        (∃ s, findSession st inp.sessionId = some s ∧
          ¬(s.status = "closed") ∧
          (inp.sender = "agent" → agentSet s = true)))) ∧
    (∀ st inp now,
      (∀ m, ¬((postChatMessage st inp now).2 = PostMsgOutcome.created m)) →
      (postChatMessage st inp now).1 = st) ∧
    (∀ st inp now m,
      (postChatMessage st inp now).2 = PostMsgOutcome.created m →
      (postChatMessage st inp now).1 =
        { st with messages := st.messages ++ [m] }) ∧
    (∀ st inp now, ¬(inp.sessionId = "") → ¬(inp.message = "") →
      ¬(inp.sender = "") →
      (∀ mid, inp.id = some mid → findMessageById st mid = none) →
      ((∃ m, (sendMessage st inp now true).outcome = MsgOutcome.ok m false) ↔
        (∃ s, findSession st inp.sessionId = some s ∧
          ¬(s.status = "closed")))) ∧
    (∀ st inp now ok e,
      (sendMessage st inp now ok).outcome = MsgOutcome.err e →
      (sendMessage st inp now ok).store = st ∧
      (sendMessage st inp now ok).trace = []) := by
  refine ⟨?_, ?_, ?_, ?_, ?_⟩
  · intro st inp now hfresh
    have hins : (st.messages.any (fun m => m.id == some inp.id)) = false := by
      apply List.any_eq_false.mpr
      intro m hm
      simp [hfresh m hm]
    constructor
    · rintro ⟨m, hm⟩
      unfold postChatMessage at hm
      cases hfs : findSession st inp.sessionId with
      | none =>
        rw [hfs] at hm
        cases hm
      | some s =>
        rw [hfs] at hm
        simp only at hm
        by_cases hcl : (s.status == "closed") = true
        · rw [if_pos hcl] at hm
          cases hm
        · rw [if_neg hcl] at hm
          by_cases hag : (inp.sender == "agent" && !agentSet s) = true
          · rw [if_pos hag] at hm
            cases hm
          · refine ⟨s, rfl, by simpa using hcl, ?_⟩
            intro hsnd
            simp only [Bool.and_eq_true, beq_iff_eq, Bool.not_eq_true'] at hag
            push_neg at hag
            have := hag hsnd
            simp only [Bool.not_eq_false] at this
            exact this
    · rintro ⟨s, hfs, hcl, hagent⟩
      unfold postChatMessage
      rw [hfs]
      simp only
      rw [if_neg (by simp [hcl])]
      rw [if_neg (by
        by_cases hsnd : inp.sender = "agent"
        · simp [hsnd, hagent hsnd]
        · simp [hsnd])]
      rw [show insertMessageUnique st
          ⟨some inp.id, inp.sessionId, inp.sender, inp.message, now⟩ =
          Except.ok { st with messages := st.messages ++
            [⟨some inp.id, inp.sessionId, inp.sender, inp.message, now⟩] } by
        unfold insertMessageUnique
        rw [if_neg (by simp [hins])]]
      exact ⟨_, rfl⟩
  · intro st inp now hnc
    unfold postChatMessage at hnc ⊢
    cases hfs : findSession st inp.sessionId with
    | none => rfl
    | some s =>
      simp only
      by_cases hcl : (s.status == "closed") = true
      · rw [if_pos hcl]
      · rw [if_neg hcl]
        by_cases hag : (inp.sender == "agent" && !agentSet s) = true
        · rw [if_pos hag]
        · rw [if_neg hag]
          cases hins : insertMessageUnique st
              ⟨some inp.id, inp.sessionId, inp.sender, inp.message, now⟩ with
          | error e => rfl
          | ok st' =>
            exfalso
            apply hnc ⟨some inp.id, inp.sessionId, inp.sender, inp.message, now⟩
            rw [hfs]
            simp only
            rw [if_neg hcl, if_neg hag, hins]
  · intro st inp now m hm
    unfold postChatMessage at hm ⊢
    cases hfs : findSession st inp.sessionId with
    | none =>
      rw [hfs] at hm
      cases hm
    | some s =>
      rw [hfs] at hm
      simp only at hm ⊢
      by_cases hcl : (s.status == "closed") = true
      · rw [if_pos hcl] at hm
        cases hm
      · rw [if_neg hcl] at hm ⊢
        by_cases hag : (inp.sender == "agent" && !agentSet s) = true
        · rw [if_pos hag] at hm
          cases hm
        · rw [if_neg hag] at hm ⊢
          cases hins : insertMessageUnique st
              ⟨some inp.id, inp.sessionId, inp.sender, inp.message, now⟩ with
          | error e =>
            rw [hins] at hm
            cases hm
          | ok st' =>
            rw [hins] at hm
            have hm' : PostMsgOutcome.created
                ⟨some inp.id, inp.sessionId, inp.sender, inp.message, now⟩ =
                PostMsgOutcome.created m := hm
            have hmde : m = ⟨some inp.id, inp.sessionId, inp.sender,
                inp.message, now⟩ := by
              cases hm'
              rfl
            subst hmde
            unfold insertMessageUnique at hins
            by_cases hdup : (st.messages.any
                (fun mm => mm.id == some inp.id)) = true
            · rw [if_pos hdup] at hins
              cases hins
            · rw [if_neg hdup] at hins
              cases hins
              rfl
  · intro st inp now hsid hmsg hsnd hfresh
    constructor
    · rintro ⟨m, hm⟩
      unfold sendMessage at hm
      by_cases hval : (inp.sessionId == "" || inp.message == "" ||
          inp.sender == "") = true
      · rw [if_pos hval] at hm
        cases hm
      · rw [if_neg hval] at hm
        cases hfs : findSession st inp.sessionId with
        | none =>
          rw [hfs] at hm
          cases hm
        | some s =>
          rw [hfs] at hm
          simp only at hm
          by_cases hcl : (s.status == "closed") = true
          · rw [if_pos hcl] at hm
            cases hm
          · rw [if_neg hcl] at hm
            cases hdup : (if strTruthy inp.id
                then inp.id.bind (findMessageById st) else none) with
            | some m0 =>
              exfalso
              rw [hdup] at hm
              exact absurd hm (by simp)
            | none =>
              exact ⟨s, rfl, by simpa using hcl⟩
    · rintro ⟨s, hfs, hcl⟩
      unfold sendMessage
      rw [if_neg (by simp [hsid, hmsg, hsnd])]
      rw [hfs]
      simp only
      rw [if_neg (by simp [hcl])]
      rw [show (if strTruthy inp.id then inp.id.bind (findMessageById st)
          else none) = none by
        cases hi : inp.id with
        | none => simp [strTruthy]
        | some mid =>
          by_cases hmid : (mid == "") = true
          · simp [strTruthy, hmid]
          · simp only [strTruthy, hmid, Bool.not_false, if_true,
              Option.bind_some]
            exact hfresh mid hi]
      exact ⟨_, rfl⟩
  · intro st inp now ok e herr
    rcases sendMessage_cases st inp now ok with ⟨e', hc⟩ | ⟨m0, hc⟩ | ⟨doc, hc⟩
    · rw [hc]
      exact ⟨rfl, rfl⟩
    · rw [hc] at herr
      cases herr
    · rw [hc] at herr
      cases herr

theorem C5_accept_amended_witness :
    (∀ m ∈ c5Store.messages, ¬(m.id = some "m9")) ∧
    ((∃ m, (postChatMessage c5Store ⟨"m9", "s1", "agent", "x"⟩ 6).2 =
        PostMsgOutcome.created m) ↔
      (∃ s, findSession c5Store "s1" = some s ∧ ¬(s.status = "closed") ∧
        ("agent" = "agent" → agentSet s = true))) ∧
    ((sendMessage c5Store ⟨some "m1", "s1", "user", ""⟩ 6 true).store =
        c5Store ∧
      (sendMessage c5Store ⟨some "m1", "s1", "user", ""⟩ 6 true).trace = []) :=
  ⟨by decide,
   C5_accept_amended.1 c5Store ⟨"m9", "s1", "agent", "x"⟩ 6
     (by decide),
   C5_accept_amended.2.2.2.2 c5Store ⟨some "m1", "s1", "user", ""⟩ 6 true
     "Invalid message data: missing required fields" (by decide)⟩

/-- Counting after filter-map-filter equals counting with the fused
predicate. -/
theorem length_filter_map_filter (g : α → β) (q : α → Bool) (p : β → Bool)
    (l : List α) :
    (((l.filter q).map g).filter p).length =
      (l.filter (fun a => q a && p (g a))).length := by
  induction l with
  | nil => rfl
  | cons x xs ih =>
    by_cases hq : q x = true
    · by_cases hp : p (g x) = true
      · simp [List.filter_cons, hq, hp, ih]
      · simp [List.filter_cons, hq, hp, ih]
    · simp [List.filter_cons, hq, ih]

/-- `(a + b - 1) / b` in natural arithmetic is `Math.ceil(a / b)`. -/
theorem natCeilDiv (a b : Nat) (hb : 0 < b) :
    (a + b - 1) / b = ⌈(a : ℚ) / (b : ℚ)⌉₊ := by
  have hbq : (0 : ℚ) < (b : ℚ) := by exact_mod_cast hb
  rcases Nat.eq_zero_or_pos a with ha | ha
  · subst ha
    have h1 : (0 + b - 1) / b = 0 := Nat.div_eq_of_lt (by omega)
    rw [h1]
    simp
  · have hn0 : (a + b - 1) / b ≠ 0 := by
      intro h0
      have hble : b ≤ a + b - 1 := by omega
      have := (Nat.div_eq_zero_iff hb).mp h0
      omega
    set n := (a + b - 1) / b with hn
    have key := Nat.div_add_mod (a + b - 1) b
    have hrlt : (a + b - 1) % b < b := Nat.mod_lt _ hb
    have hnpos : 0 < n := Nat.pos_of_ne_zero hn0
    have hmul : b * n = b * (n - 1) + b := by
      have hsucc : n - 1 + 1 = n := Nat.succ_pred_eq_of_pos hnpos
      calc b * n = b * (n - 1 + 1) := by rw [hsucc]
        _ = b * (n - 1) + b := by rw [Nat.mul_add, Nat.mul_one]
    have hlb : a ≤ b * n := by
      generalize hP : b * n = P at key
      omega
    have hlow : b * (n - 1) < a := by
      generalize hQ : b * (n - 1) = Q at hmul
      generalize hP : b * n = P at key hmul
      omega
    rw [eq_comm]
    rw [Nat.ceil_eq_iff hn0]
    constructor
    · rw [lt_div_iff₀ hbq]
      have : ((n - 1 : ℕ) : ℚ) * (b : ℚ) = ((b * (n - 1) : ℕ) : ℚ) := by
        push_cast
        ring
      rw [this]
      exact_mod_cast hlow
    · rw [div_le_iff₀ hbq]
      have : ((n : ℕ) : ℚ) * (b : ℚ) = ((b * n : ℕ) : ℚ) := by
        push_cast
        ring
      rw [this]
      exact_mod_cast hlb

/-- The page size computed by `getSessions` is at least one. -/
theorem limitOf_pos (opts : PaginationOptions) : 0 < limitOf opts := by
  unfold limitOf
  have h1 : 1 ≤ max 1 (jsOrNat opts.limit 20) := le_max_left 1 _
  omega

/-- **C7.**  On both execution paths of `getSessions` the pagination
descriptor satisfies `totalPages = ceil(total / limit)`,
`hasNext = (page < totalPages)` and `hasPrev = (page > 1)`; on the
aggregation path `total` comes from the duplicated count pipeline and
equals the number of stored sessions satisfying the base filters *and*
the derived-field predicates, and on the simple path it equals the number
of sessions satisfying the base filters. -/
theorem C7_pagination_descriptor (f : SessionFilters)
    (opts : PaginationOptions) (st : Store) :
    (getSessions f opts st).pagination.totalPages =
      ⌈((getSessions f opts st).pagination.total : ℚ) /
        ((getSessions f opts st).pagination.limit : ℚ)⌉₊ ∧
    (getSessions f opts st).pagination.hasNext =
      decide ((getSessions f opts st).pagination.page <
        (getSessions f opts st).pagination.totalPages) ∧
    (getSessions f opts st).pagination.hasPrev =
      decide ((getSessions f opts st).pagination.page > 1) ∧
    (needsAggregation f = true →
      (getSessions f opts st).pagination.total =
        (st.sessions.filter (fun s => matchesQuery f s &&
          durationPred f (addFields st s))).length) ∧
    (needsAggregation f = false →
      (getSessions f opts st).pagination.total =
        (st.sessions.filter (matchesQuery f)).length) := by
  by_cases hagg : needsAggregation f = true
  · unfold getSessions
    rw [if_pos hagg]
    refine ⟨?_, rfl, rfl, ?_, ?_⟩
    · exact natCeilDiv _ _ (limitOf_pos opts)
    · intro _
      show countTotal f st = _
      unfold countTotal countItems
      exact length_filter_map_filter _ _ _ _
    · intro h
      rw [hagg] at h
      cases h
  · unfold getSessions
    rw [if_neg hagg]
    refine ⟨?_, rfl, rfl, ?_, ?_⟩
    · exact natCeilDiv _ _ (limitOf_pos opts)
    · intro h
      exact absurd h hagg
    · intro _
      rfl

theorem C7_pagination_descriptor_witness :
    needsAggregation ({ minMessageCount := some 2 } : SessionFilters) =
      true ∧
    ((getSessions { minMessageCount := some 2 } {} c4Store).pagination.totalPages =
      ⌈((getSessions { minMessageCount := some 2 } {} c4Store).pagination.total : ℚ) /
        ((getSessions { minMessageCount := some 2 } {} c4Store).pagination.limit : ℚ)⌉₊ ∧
    (getSessions { minMessageCount := some 2 } {} c4Store).pagination.hasNext =
      decide ((getSessions { minMessageCount := some 2 } {} c4Store).pagination.page <
        (getSessions { minMessageCount := some 2 } {} c4Store).pagination.totalPages) ∧
    (getSessions { minMessageCount := some 2 } {} c4Store).pagination.hasPrev =
      decide ((getSessions { minMessageCount := some 2 } {} c4Store).pagination.page > 1) ∧
    (needsAggregation ({ minMessageCount := some 2 } : SessionFilters) = true →
      (getSessions { minMessageCount := some 2 } {} c4Store).pagination.total =
        (c4Store.sessions.filter (fun s =>
          matchesQuery { minMessageCount := some 2 } s &&
          durationPred { minMessageCount := some 2 }
            (addFields c4Store s))).length) ∧
    (needsAggregation ({ minMessageCount := some 2 } : SessionFilters) = false →
      (getSessions { minMessageCount := some 2 } {} c4Store).pagination.total =
        (c4Store.sessions.filter
          (matchesQuery { minMessageCount := some 2 })).length)) :=
  ⟨by decide,
   C7_pagination_descriptor { minMessageCount := some 2 } {} c4Store⟩

/-- Elements surviving the data pipeline also survive the (identical)
pre-`$count` stages. -/
theorem mem_countItems_of_mem_dataPipeline (f : SessionFilters)
    (sn : String) (asc : Bool) (skip limit : Nat) (st : Store)
    (x : AggSession) (hx : x ∈ dataPipeline f sn asc skip limit st) :
    x ∈ countItems f st := by
  unfold dataPipeline at hx
  have hx1 := List.mem_of_mem_drop (List.mem_of_mem_take hx)
  unfold sortAgg at hx1
  exact (List.perm_insertionSort _ _).mem_iff.mp hx1

/-- **C8.**  Derived-field filtering is consistent with the stored data:
a session with exactly 12 referencing messages is included by the
message-count range [10,50] and excluded by [0,5] (the lower bound 0 is
falsy and drops out, the upper bound 5 rejects); an active session whose
`updatedAt - createdAt` equals 600000 ms is included under
`minDuration = 300000` and excluded under `maxDuration = 60000` — on the
count pipeline and, for the exclusions, on every page of the data
pipeline. -/
theorem C8_derived_filter_consistency :
    (∀ (f : SessionFilters) (st : Store) (s : Session),
      f.minMessageCount = some 10 → f.maxMessageCount = some 50 →
      f.minDuration = none → f.maxDuration = none →
      s ∈ st.sessions → matchesQuery f s = true →
      (st.messages.filter (fun m => m.sessionId == s.id)).length = 12 →
      addFields st s ∈ countItems f st) ∧
    (∀ (f : SessionFilters) (st : Store) (s : Session),
      f.minMessageCount = some 0 → f.maxMessageCount = some 5 →
      f.minDuration = none → f.maxDuration = none →
      (st.messages.filter (fun m => m.sessionId == s.id)).length = 12 →
      (∀ x ∈ countItems f st, ¬(x.session = s)) ∧
      (∀ sn asc skip limit x, x ∈ dataPipeline f sn asc skip limit st →
        ¬(x.session = s))) ∧
    (∀ (f : SessionFilters) (st : Store) (s : Session),
      f.minDuration = some 300000 → f.maxDuration = none →
      f.minMessageCount = none → f.maxMessageCount = none →
      f.status = some ["active"] → s.status = "active" →
      s ∈ st.sessions → matchesQuery f s = true →
      (s.updatedAt : Int) - (s.createdAt : Int) = 600000 →
      addFields st s ∈ countItems f st) ∧
    (∀ (f : SessionFilters) (st : Store) (s : Session),
      f.maxDuration = some 60000 → f.minDuration = none →
      f.minMessageCount = none → f.maxMessageCount = none →
      (s.updatedAt : Int) - (s.createdAt : Int) = 600000 →
      (∀ x ∈ countItems f st, ¬(x.session = s)) ∧
      (∀ sn asc skip limit x, x ∈ dataPipeline f sn asc skip limit st →
        ¬(x.session = s))) := by
  have notMemOfDpFalse : ∀ (f : SessionFilters) (st : Store) (s : Session),
      durationPred f (addFields st s) = false →
      (∀ x ∈ countItems f st, ¬(x.session = s)) ∧
      (∀ sn asc skip limit x, x ∈ dataPipeline f sn asc skip limit st →
        ¬(x.session = s)) := by
    intro f st s hdp
    have hcore : ∀ x ∈ countItems f st, ¬(x.session = s) := by
      intro x hx hxs
      unfold countItems at hx
      obtain ⟨hxm, hdpx⟩ := List.mem_filter.mp hx
      obtain ⟨t, _, hgt⟩ := List.mem_map.mp hxm
      have hxt : x.session = t := by
        rw [← hgt]
        rfl
      have hts : t = s := by
        rw [← hxt, hxs]
      rw [← hgt, hts] at hdpx
      rw [hdpx] at hdp
      cases hdp
    exact ⟨hcore, fun sn asc skip limit x hx hxs =>
      hcore x (mem_countItems_of_mem_dataPipeline f sn asc skip limit st x hx)
        hxs⟩
  refine ⟨?_, ?_, ?_, ?_⟩
  · intro f st s h1 h2 h3 h4 hmem hq hcount
    unfold countItems
    refine List.mem_filter.mpr
      ⟨List.mem_map_of_mem _ (List.mem_filter.mpr ⟨hmem, hq⟩), ?_⟩
    simp [durationPred, addFields, h1, h2, h3, h4, hcount]
  · intro f st s h1 h2 h3 h4 hcount
    apply notMemOfDpFalse
    simp [durationPred, addFields, h1, h2, h3, h4, hcount]
  · intro f st s h1 h2 h3 h4 _ _ hmem hq hdur
    unfold countItems
    refine List.mem_filter.mpr
      ⟨List.mem_map_of_mem _ (List.mem_filter.mpr ⟨hmem, hq⟩), ?_⟩
    simp only [durationPred, addFields, h1, h2, h3, h4, hdur]
    norm_num
  · intro f st s h1 h2 h3 h4 hdur
    apply notMemOfDpFalse
    simp only [durationPred, addFields, h1, h2, h3, h4, hdur]
    norm_num

def c8Sess : Session :=
  ⟨"s1", "active", some "A", some "Ag", "u@x", "U", "hi", 1000, 601000⟩

def c8Msgs : List Message :=
  (List.range 12).map (fun i => ⟨some (Nat.repr i), "s1", "user", "m", i⟩)

def c8Store : Store := ⟨[c8Sess], c8Msgs⟩

def c8fIncl : SessionFilters :=
  { minMessageCount := some 10, maxMessageCount := some 50 }

def c8fExcl : SessionFilters :=
  { minMessageCount := some 0, maxMessageCount := some 5 }

def c8fDurIncl : SessionFilters :=
  { status := some ["active"], minDuration := some 300000 }

def c8fDurExcl : SessionFilters := { maxDuration := some 60000 }

theorem C8_derived_filter_consistency_witness :
    (c8Store.messages.filter
      (fun m => m.sessionId == c8Sess.id)).length = 12 ∧
    (c8Sess.updatedAt : Int) - (c8Sess.createdAt : Int) = 600000 ∧
    addFields c8Store c8Sess ∈ countItems c8fIncl c8Store ∧
    (∀ x ∈ countItems c8fExcl c8Store, ¬(x.session = c8Sess)) ∧
    addFields c8Store c8Sess ∈ countItems c8fDurIncl c8Store ∧
    (∀ x ∈ countItems c8fDurExcl c8Store, ¬(x.session = c8Sess)) :=
  ⟨by decide, by decide,
   C8_derived_filter_consistency.1 c8fIncl c8Store c8Sess rfl rfl rfl rfl
     (by decide) (by decide) (by decide),
   (C8_derived_filter_consistency.2.1 c8fExcl c8Store c8Sess rfl rfl rfl rfl
     (by decide)).1,
   C8_derived_filter_consistency.2.2.1 c8fDurIncl c8Store c8Sess rfl rfl rfl
     rfl rfl rfl (by decide) (by decide) (by decide),
   (C8_derived_filter_consistency.2.2.2 c8fDurExcl c8Store c8Sess rfl rfl rfl
     rfl (by decide)).1⟩

theorem retryGo_attempts_le (op : Nat → Except String α) (d : Nat) :
    ∀ fuel att, (retryGo op d att fuel).attemptsMade ≤ fuel := by
  intro fuel
  induction fuel with
  | zero =>
    intro att
    simp [retryGo]
  | succ n ih =>
    intro att
    unfold retryGo
    cases op att with
    | ok v => simp
    | error e =>
      dsimp only
      by_cases hn : (n == 0) = true
      · rw [if_pos hn]
        simp
      · rw [if_neg hn]
        dsimp only
        have := ih (att + 1)
        omega

/-- **C9.**  The resilience wrapper `withRetry`: (1) every wrapped store
operation is attempted at most 3 times (the default bound); (2) when all
three attempts fail, the attempts are separated by exponential backoff
sleeps `delay·2⁰, delay·2¹` and the *last* error is thrown to the caller
rather than swallowed; (3) a first-attempt success performs exactly one
attempt and no sleep; (4) the deterministic Conflict of the
create-session endpoint is raised outside the wrapper after a single
read attempt — it is never retried and leaves the store unchanged. -/
theorem C9_retry_policy :
    (∀ (α : Type) (op : Nat → Except String α),
      (withRetry op).attemptsMade ≤ 3) ∧
    (∀ (α : Type) (op : Nat → Except String α) (e : Nat → String),
      (∀ k, 1 ≤ k → k ≤ 3 → op k = .error (e k)) →
      withRetry op = ⟨.error (e 3), 3, [1000, 2000]⟩) ∧
    (∀ (α : Type) (op : Nat → Except String α) (v : α),
      op 1 = .ok v → withRetry op = ⟨.ok v, 1, []⟩) ∧
    (∀ (st : Store) (inp : CreateInput) (now : Nat),
      findSession st inp.id ≠ none →
      (postChatSessions st inp now).2.1 =
        CreateOutcome.conflict "Session with this ID already exists" ∧
      (postChatSessions st inp now).2.2 = 1 ∧
      (postChatSessions st inp now).1 = st) := by
  refine ⟨?_, ?_, ?_, ?_⟩
  · intro α op
    exact retryGo_attempts_le op 1000 3 1
  · intro α op e h
    have h1 := h 1 (by norm_num) (by norm_num)
    have h2 := h 2 (by norm_num) (by norm_num)
    have h3 := h 3 (by norm_num) (by norm_num)
    show retryGo op 1000 1 3 = _
    rw [show (3 : Nat) = 2 + 1 from rfl]
    unfold retryGo
    rw [h1]
    simp only [Nat.add_eq_zero, OfNat.ofNat_ne_zero, false_and, beq_iff_eq,
      if_false]
    rw [show (2 : Nat) = 1 + 1 from rfl]
    unfold retryGo
    rw [h2]
    simp only [Nat.add_eq_zero, one_ne_zero, false_and, beq_iff_eq, if_false]
    rw [show (1 : Nat) = 0 + 1 from rfl]
    unfold retryGo
    rw [h3]
    norm_num
  · intro α op v hop
    show retryGo op 1000 1 3 = _
    rw [show (3 : Nat) = 2 + 1 from rfl]
    unfold retryGo
    rw [hop]
  · intro st inp now hne
    unfold postChatSessions
    cases hfs : findSession st inp.id with
    | none => exact absurd hfs hne
    | some s0 => exact ⟨rfl, rfl, rfl⟩

def c9Sess : Session := ⟨"s9", "waiting", none, none, "u@x", "U", "hi", 1, 1⟩

def c9Store : Store := ⟨[c9Sess], []⟩

theorem C9_retry_policy_witness :
    (∀ k, 1 ≤ k → k ≤ 3 →
      (fun _ => (Except.error "boom" : Except String Nat)) k =
        Except.error ((fun _ => "boom") k)) ∧
    withRetry (fun _ => (Except.error "boom" : Except String Nat)) =
      ⟨Except.error "boom", 3, [1000, 2000]⟩ ∧
    findSession c9Store "s9" ≠ none ∧
    ((postChatSessions c9Store ⟨"s9", "u@x", "U", "hi"⟩ 9).2.1 =
        CreateOutcome.conflict "Session with this ID already exists" ∧
      (postChatSessions c9Store ⟨"s9", "u@x", "U", "hi"⟩ 9).2.2 = 1 ∧
      (postChatSessions c9Store ⟨"s9", "u@x", "U", "hi"⟩ 9).1 = c9Store) :=
  ⟨fun _ _ _ => rfl,
   C9_retry_policy.2.1 Nat (fun _ => .error "boom") (fun _ => "boom")
     (fun _ _ _ => rfl),
   by decide,
   C9_retry_policy.2.2.2 c9Store ⟨"s9", "u@x", "U", "hi"⟩ 9 (by decide)⟩

/-- **C10.**  A message-history request with `page = 1` and `limit ≤ 50`
is served by the recent-messages shortcut: it returns the first
`min(limit, total)` messages of the session in ascending `createdAt`
order (the oldest ones), and the pagination descriptor reports
`total = number of messages returned`, `totalPages = 1`,
`hasNext = false`, `hasPrev = false`, even when the session holds more
messages than the limit. -/
theorem C10_recent_messages (st : Store) (sid : String) (limit : Nat)
    (s : Session) (hfind : findSession st sid = some s)
    (_h1 : 1 ≤ limit) (h50 : limit ≤ 50) :
    getChatMessagesGET st sid 1 limit =
      Except.ok ⟨(sortedSessionMessages st sid).take limit,
        ⟨1, limit, ((sortedSessionMessages st sid).take limit).length, 1,
         false, false⟩⟩ ∧
    ((sortedSessionMessages st sid).take limit).length =
      min limit (st.messages.filter (fun m => m.sessionId == sid)).length ∧
    List.Pairwise (fun m1 m2 => m1.createdAt ≤ m2.createdAt)
      ((sortedSessionMessages st sid).take limit) := by
  refine ⟨?_, ?_, ?_⟩
  · unfold getChatMessagesGET
    rw [hfind]
    simp only
    rw [if_pos (by simp [h50])]
    unfold getRecentMessages
    rw [Nat.min_eq_right (le_trans h50 (by norm_num))]
  · rw [List.length_take]
    congr 1
    unfold sortedSessionMessages
    exact (List.perm_insertionSort _ _).length_eq
  · haveI ht : IsTotal Message (fun a b => a.createdAt ≤ b.createdAt) :=
      ⟨fun a b => Nat.le_total _ _⟩
    haveI htr : IsTrans Message (fun a b => a.createdAt ≤ b.createdAt) :=
      ⟨fun a b c hab hbc => Nat.le_trans hab hbc⟩
    have hsorted := List.sorted_insertionSort
      (fun a b : Message => a.createdAt ≤ b.createdAt)
      (st.messages.filter (fun m => m.sessionId == sid))
    exact List.Pairwise.sublist (List.take_sublist limit _) hsorted

def c10Sess : Session := ⟨"s1", "waiting", none, none, "u@x", "U", "hi", 1, 1⟩

def c10Store : Store :=
  ⟨[c10Sess], [⟨some "m2", "s1", "user", "b", 2⟩,
    ⟨some "m1", "s1", "user", "a", 1⟩]⟩

theorem C10_recent_messages_witness :
    findSession c10Store "s1" = some c10Sess ∧ 1 ≤ 1 ∧ 1 ≤ 50 ∧
    (getChatMessagesGET c10Store "s1" 1 1 =
      Except.ok ⟨(sortedSessionMessages c10Store "s1").take 1,
        ⟨1, 1, ((sortedSessionMessages c10Store "s1").take 1).length, 1,
         false, false⟩⟩ ∧
    ((sortedSessionMessages c10Store "s1").take 1).length =
      min 1 (c10Store.messages.filter
        (fun m => m.sessionId == "s1")).length ∧
    List.Pairwise (fun m1 m2 => m1.createdAt ≤ m2.createdAt)
      ((sortedSessionMessages c10Store "s1").take 1)) :=
  ⟨rfl, by norm_num, by norm_num,
   C10_recent_messages c10Store "s1" 1 c10Sess rfl (by norm_num)
     (by norm_num)⟩

end Speicher
